import Mathlib

/-!
Verification of the BuildBoard Convex backend (access gate, daily-entry
recorder, KPI/trend aggregation, leaderboard ranking) against its
natural-language specification.

The backend is shallowly embedded: the Convex document store becomes a `Db`
structure of lists, `ctx.db.query(...).withIndex(...).first()` becomes
`List.find?`, `.collect()` becomes `List.filter`, `ctx.db.patch` becomes an
in-place map over the entry list, and `ctx.db.insert` appends a fresh record.
JavaScript numbers are modelled as `ℚ`, `Date.now()` as an explicit `now`
parameter, and the authenticated user (`getAuthUserId`) as an
`Option UserId` argument.  Convex's `db.patch` removes a field whose patch
value is `undefined`; optional patch fields are therefore modelled as the
`Option` value written verbatim into the stored record.
-/

abbrev UserId := String
abbrev ProjectId := String
abbrev ScopeId := String
abbrev ActivityId := String

inductive Role where
  | control_center
  | construction_manager
deriving DecidableEq

inductive ProjectStatus where
  | active
  | completed
  | on_hold
deriving DecidableEq

structure UserProfile where
  userId : UserId
  name : String
  role : Role
deriving DecidableEq

structure ProjectAssignment where
  userId : UserId
  projectId : ProjectId
deriving DecidableEq

structure ScopeAssignment where
  userId : UserId
  scopeId : ScopeId
  projectId : ProjectId
deriving DecidableEq

structure Project where
  id : ProjectId
  name : String
  status : ProjectStatus
deriving DecidableEq

structure Scope where
  id : ScopeId
  projectId : ProjectId
  name : String
deriving DecidableEq

structure Activity where
  id : ActivityId
  scopeId : ScopeId
  projectId : ProjectId
  name : String
  unit : String
deriving DecidableEq

/-- DailyEntry mirrors the `dailyEntries` table of `schema.ts`: every
forecast/actual field is optional, `_id` is modelled as a `Nat` issued by the
store. -/
structure DailyEntry where
  id : Nat
  activityId : ActivityId
  scopeId : ScopeId
  projectId : ProjectId
  date : String
  userId : UserId
  foremanName : Option String
  forecastQuantity : Option ℚ
  forecastCrewSize : Option ℚ
  forecastHoursPerWorker : Option ℚ
  forecastHours : Option ℚ
  actualQuantity : Option ℚ
  actualCrewSize : Option ℚ
  actualHoursPerWorker : Option ℚ
  actualHours : Option ℚ
  notes : Option String
  createdBy : Option UserId
  createdAt : Option ℤ
  updatedBy : Option UserId
  updatedAt : Option ℤ
deriving DecidableEq

structure Db where
  userProfiles : List UserProfile
  projectAssignments : List ProjectAssignment
  scopeAssignments : List ScopeAssignment
  projects : List Project
  scopes : List Scope
  activities : List Activity
  dailyEntries : List DailyEntry
  nextId : Nat
deriving DecidableEq

/-- checkProjectAccess, as duplicated at the top of `activities.ts`,
`dailyEntries.ts`, `dashboard.ts` and `leaderboard.ts`: no profile → allow,
control_center → allow, otherwise allow iff a projectAssignments row exists
for (userId, projectId). -/
def checkProjectAccess (db : Db) (userId : UserId) (projectId : ProjectId) : Bool :=
  match db.userProfiles.find? (fun p => p.userId == userId) with
  | none => true
  | some profile =>
    if profile.role = Role.control_center then true
    else
      (db.projectAssignments.find?
        (fun a => a.userId == userId && a.projectId == projectId)).isSome

/-- isControlCenter from `dashboard.ts`. -/
def isControlCenter (db : Db) (userId : UserId) : Bool :=
  match db.userProfiles.find? (fun p => p.userId == userId) with
  | none => false
  | some profile => profile.role = Role.control_center

/-- C1: the access gate allows a user with no profile record, allows a
control_center profile unconditionally, and otherwise allows exactly when a
ProjectAssignment row exists for (userId, projectId). -/
theorem checkProjectAccess_cases (db : Db) (u : UserId) (p : ProjectId) :
    ((∀ q ∈ db.userProfiles, q.userId ≠ u) → checkProjectAccess db u p = true) ∧
    (∀ prof, db.userProfiles.find? (fun q => q.userId == u) = some prof →
      prof.role = Role.control_center → checkProjectAccess db u p = true) ∧
    (∀ prof, db.userProfiles.find? (fun q => q.userId == u) = some prof →
      prof.role ≠ Role.control_center →
      (checkProjectAccess db u p = true ↔
        ∃ a ∈ db.projectAssignments, a.userId = u ∧ a.projectId = p)) := by
  refine ⟨fun hnone => ?_, fun prof hfind hcc => ?_, fun prof hfind hcm => ?_⟩
  · have h : db.userProfiles.find? (fun q => q.userId == u) = none := by
      rw [List.find?_eq_none]
      intro q hq
      simpa using hnone q hq
    simp [checkProjectAccess, h]
  · simp [checkProjectAccess, hfind, hcc]
  · simp only [checkProjectAccess, hfind, if_neg hcm]
    rw [List.find?_isSome]
    constructor
    · rintro ⟨a, ha, hpa⟩
      exact ⟨a, ha, by simpa using hpa⟩
    · rintro ⟨a, ha, h1, h2⟩
      exact ⟨a, ha, by simp [h1, h2]⟩

/-- getUserForemanName from `dailyEntries.ts`: the submitting user's own
profile name, if any. -/
def getUserForemanName (db : Db) (userId : UserId) : Option String :=
  (db.userProfiles.find? (fun p => p.userId == userId)).map (fun p => p.name)

/-- getAssignedCMName from `dailyEntries.ts`: the profile name of the first
scopeAssignments row for the scope, if both exist. -/
def getAssignedCMName (db : Db) (scopeId : ScopeId) : Option String :=
  match db.scopeAssignments.find? (fun a => a.scopeId == scopeId) with
  | none => none
  | some assignment =>
    (db.userProfiles.find? (fun p => p.userId == assignment.userId)).map (fun p => p.name)

/-- resolveForemanName: `assignedCMName ?? getUserForemanName(ctx, userId)`,
shared by all three submit mutations. -/
def resolveForemanName (db : Db) (scopeId : ScopeId) (userId : UserId) : Option String :=
  (getAssignedCMName db scopeId).orElse (fun _ => getUserForemanName db userId)

structure ForecastArgs where
  activityId : ActivityId
  date : String
  forecastQuantity : ℚ
  forecastCrewSize : ℚ
  forecastHoursPerWorker : ℚ
  notes : Option String
deriving DecidableEq

structure ActualsArgs where
  activityId : ActivityId
  date : String
  actualQuantity : ℚ
  actualCrewSize : ℚ
  actualHoursPerWorker : ℚ
  notes : Option String
deriving DecidableEq

structure EntryArgs where
  activityId : ActivityId
  date : String
  forecastQuantity : Option ℚ
  forecastCrewSize : Option ℚ
  forecastHoursPerWorker : Option ℚ
  actualQuantity : Option ℚ
  actualCrewSize : Option ℚ
  actualHoursPerWorker : Option ℚ
  notes : Option String
deriving DecidableEq

/-- findEntry: `ctx.db.query("dailyEntries").withIndex("by_activity_and_date",
q => q.eq("activityId", ...).eq("date", ...)).first()`. -/
def findEntry (db : Db) (activityId : ActivityId) (date : String) : Option DailyEntry :=
  db.dailyEntries.find? (fun e => e.activityId == activityId && e.date == date)

/-- patchEntry: `ctx.db.patch(id, ...)` — replaces the document with the given
id by the updated document. -/
def patchEntry (db : Db) (id : Nat) (updated : DailyEntry) : Db :=
  { db with dailyEntries := db.dailyEntries.map (fun e => if e.id == id then updated else e) }

/-- insertDoc: `ctx.db.insert("dailyEntries", ...)` — appends a document
carrying the store's next fresh id (which the mutation returns). -/
def insertDoc (db : Db) (entry : Nat → DailyEntry) : Db :=
  { db with dailyEntries := db.dailyEntries ++ [entry db.nextId], nextId := db.nextId + 1 }

/-- submitForecast from `dailyEntries.ts`: auth, activity lookup, access gate,
foreman resolution, `forecastHours = crewSize * hoursPerWorker`, then
lookup-and-patch or insert for (activityId, date). -/
def submitForecast (db : Db) (auth : Option UserId) (now : ℤ) (args : ForecastArgs) :
    Except String (Nat × Db) :=
  match auth with
  | none => .error "Not authenticated"
  | some userId =>
    match db.activities.find? (fun a => a.id == args.activityId) with
    | none => .error "Activity not found"
    | some activity =>
      if checkProjectAccess db userId activity.projectId = false then .error "Access denied"
      else
        let foremanName := resolveForemanName db activity.scopeId userId
        let forecastHours := args.forecastCrewSize * args.forecastHoursPerWorker
        match findEntry db args.activityId args.date with
        | some existing =>
          .ok (existing.id, patchEntry db existing.id
            { existing with
              forecastQuantity := some args.forecastQuantity
              forecastCrewSize := some args.forecastCrewSize
              forecastHoursPerWorker := some args.forecastHoursPerWorker
              forecastHours := some forecastHours
              notes := args.notes.orElse (fun _ => existing.notes)
              foremanName := foremanName.orElse (fun _ => existing.foremanName)
              updatedBy := some userId
              updatedAt := some now })
        | none =>
          .ok (db.nextId, insertDoc db (fun id =>
            { id := id
              activityId := args.activityId
              scopeId := activity.scopeId
              projectId := activity.projectId
              date := args.date
              userId := userId
              foremanName := foremanName
              forecastQuantity := some args.forecastQuantity
              forecastCrewSize := some args.forecastCrewSize
              forecastHoursPerWorker := some args.forecastHoursPerWorker
              forecastHours := some forecastHours
              actualQuantity := none
              actualCrewSize := none
              actualHoursPerWorker := none
              actualHours := none
              notes := args.notes
              createdBy := some userId
              createdAt := some now
              updatedBy := none
              updatedAt := none }))

/-- submitActuals from `dailyEntries.ts`, symmetric to submitForecast on the
actual-side fields. -/
def submitActuals (db : Db) (auth : Option UserId) (now : ℤ) (args : ActualsArgs) :
    Except String (Nat × Db) :=
  match auth with
  | none => .error "Not authenticated"
  | some userId =>
    match db.activities.find? (fun a => a.id == args.activityId) with
    | none => .error "Activity not found"
    | some activity =>
      if checkProjectAccess db userId activity.projectId = false then .error "Access denied"
      else
        let foremanName := resolveForemanName db activity.scopeId userId
        let actualHours := args.actualCrewSize * args.actualHoursPerWorker
        match findEntry db args.activityId args.date with
        | some existing =>
          .ok (existing.id, patchEntry db existing.id
            { existing with
              actualQuantity := some args.actualQuantity
              actualCrewSize := some args.actualCrewSize
              actualHoursPerWorker := some args.actualHoursPerWorker
              actualHours := some actualHours
              notes := args.notes.orElse (fun _ => existing.notes)
              foremanName := foremanName.orElse (fun _ => existing.foremanName)
              updatedBy := some userId
              updatedAt := some now })
        | none =>
          .ok (db.nextId, insertDoc db (fun id =>
            { id := id
              activityId := args.activityId
              scopeId := activity.scopeId
              projectId := activity.projectId
              date := args.date
              userId := userId
              foremanName := foremanName
              forecastQuantity := none
              forecastCrewSize := none
              forecastHoursPerWorker := none
              forecastHours := none
              actualQuantity := some args.actualQuantity
              actualCrewSize := some args.actualCrewSize
              actualHoursPerWorker := some args.actualHoursPerWorker
              actualHours := some actualHours
              notes := args.notes
              createdBy := some userId
              createdAt := some now
              updatedBy := none
              updatedAt := none }))

/-- derivedHours models `(crew && hpw) ? crew * hpw : undefined` in
submitEntry — JavaScript truthiness makes an absent or zero input yield
`undefined`. -/
def derivedHours (crew hpw : Option ℚ) : Option ℚ :=
  match crew, hpw with
  | some c, some h => if c ≠ 0 ∧ h ≠ 0 then some (c * h) else none
  | _, _ => none

/-- submitEntry from `dailyEntries.ts`.  Its patch document spells out every
forecast/actual key plus notes and foremanName; Convex's `db.patch` removes a
field patched with `undefined`, so omitted arguments clear the stored fields
rather than preserving them. -/
def submitEntry (db : Db) (auth : Option UserId) (now : ℤ) (args : EntryArgs) :
    Except String (Nat × Db) :=
  match auth with
  | none => .error "Not authenticated"
  | some userId =>
    match db.activities.find? (fun a => a.id == args.activityId) with
    | none => .error "Activity not found"
    | some activity =>
      if checkProjectAccess db userId activity.projectId = false then .error "Access denied"
      else
        let foremanName := resolveForemanName db activity.scopeId userId
        let forecastHours := derivedHours args.forecastCrewSize args.forecastHoursPerWorker
        let actualHours := derivedHours args.actualCrewSize args.actualHoursPerWorker
        match findEntry db args.activityId args.date with
        | some existing =>
          .ok (existing.id, patchEntry db existing.id
            { existing with
              forecastQuantity := args.forecastQuantity
              forecastCrewSize := args.forecastCrewSize
              forecastHoursPerWorker := args.forecastHoursPerWorker
              forecastHours := forecastHours
              actualQuantity := args.actualQuantity
              actualCrewSize := args.actualCrewSize
              actualHoursPerWorker := args.actualHoursPerWorker
              actualHours := actualHours
              notes := args.notes
              foremanName := foremanName
              updatedBy := some userId
              updatedAt := some now })
        | none =>
          .ok (db.nextId, insertDoc db (fun id =>
            { id := id
              activityId := args.activityId
              scopeId := activity.scopeId
              projectId := activity.projectId
              date := args.date
              userId := userId
              foremanName := foremanName
              forecastQuantity := args.forecastQuantity
              forecastCrewSize := args.forecastCrewSize
              forecastHoursPerWorker := args.forecastHoursPerWorker
              forecastHours := forecastHours
              actualQuantity := args.actualQuantity
              actualCrewSize := args.actualCrewSize
              actualHoursPerWorker := args.actualHoursPerWorker
              actualHours := actualHours
              notes := args.notes
              createdBy := some userId
              createdAt := some now
              updatedBy := none
              updatedAt := none }))

/-- SubmitOp: one call to any of the three entry-write mutations. -/
inductive SubmitOp where
  | forecast (auth : Option UserId) (now : ℤ) (args : ForecastArgs)
  | actuals (auth : Option UserId) (now : ℤ) (args : ActualsArgs)
  | entry (auth : Option UserId) (now : ℤ) (args : EntryArgs)

def applySubmit (db : Db) : SubmitOp → Except String (Nat × Db)
  | .forecast auth now args => submitForecast db auth now args
  | .actuals auth now args => submitActuals db auth now args
  | .entry auth now args => submitEntry db auth now args

/-- runSubmits: a sequence of submit calls, all of which succeed (`none`
signals that some call in the sequence failed). -/
def runSubmits : Db → List SubmitOp → Option Db
  | db, [] => some db
  | db, op :: ops =>
    match applySubmit db op with
    | .ok (_, db') => runSubmits db' ops
    | .error _ => none

/-- pairCount: the number of stored dailyEntries records for one
(activityId, date) pair. -/
def pairCount (db : Db) (a : ActivityId) (d : String) : Nat :=
  (db.dailyEntries.filter (fun e => e.activityId == a && e.date == d)).length

/-- DbWf: the store invariants Convex itself provides — document ids are
unique and below the next fresh id. -/
def DbWf (db : Db) : Prop :=
  (db.dailyEntries.map (fun e => e.id)).Nodup ∧ ∀ e ∈ db.dailyEntries, e.id < db.nextId

theorem length_filter_map_of_pred_eq {α : Type} (l : List α) (g : α → α) (p : α → Bool)
    (h : ∀ e ∈ l, p (g e) = p e) :
    ((l.map g).filter p).length = (l.filter p).length := by
  induction l with
  | nil => rfl
  | cons x xs ih =>
    have hx := h x (by simp)
    have ih' := ih (fun e he => h e (by simp [he]))
    by_cases hpx : p x = true
    · simp [List.filter_cons, hx, hpx, ih']
    · simp only [Bool.not_eq_true] at hpx
      simp [List.filter_cons, hx, hpx, ih']

theorem patchEntry_step (db : Db) (ex updated : DailyEntry)
    (hex : ex ∈ db.dailyEntries) (hid : updated.id = ex.id)
    (hact : updated.activityId = ex.activityId) (hdate : updated.date = ex.date)
    (hwf : DbWf db) :
    (∀ a d, pairCount (patchEntry db ex.id updated) a d = pairCount db a d) ∧
      DbWf (patchEntry db ex.id updated) := by
  obtain ⟨hnodup, hbound⟩ := hwf
  have hinj := List.inj_on_of_nodup_map hnodup
  have hkey : ∀ e ∈ db.dailyEntries,
      (if e.id == ex.id then updated else e).activityId = e.activityId ∧
      (if e.id == ex.id then updated else e).date = e.date ∧
      (if e.id == ex.id then updated else e).id = e.id := by
    intro e he
    by_cases hc : e.id = ex.id
    · have : e = ex := hinj he hex hc
      subst this
      simp [hid, hact, hdate]
    · simp [hc]
  constructor
  · intro a d
    unfold pairCount patchEntry
    refine length_filter_map_of_pred_eq _ _ _ (fun e he => ?_)
    obtain ⟨h1, h2, _⟩ := hkey e he
    rw [h1, h2]
  · constructor
    · have hmap : db.dailyEntries.map
          ((fun e => e.id) ∘ fun e => if e.id == ex.id then updated else e) =
          db.dailyEntries.map (fun e => e.id) :=
        List.map_congr_left (fun e he => (hkey e he).2.2)
      show ((db.dailyEntries.map (fun e => if e.id == ex.id then updated else e)).map
        (fun e => e.id)).Nodup
      rw [List.map_map, hmap]
      exact hnodup
    · intro e' he'
      simp only [patchEntry, List.mem_map] at he'
      obtain ⟨e, he, rfl⟩ := he'
      simp only [patchEntry]
      rw [(hkey e he).2.2]
      exact hbound e he

theorem insertDoc_step (db : Db) (f : Nat → DailyEntry) (hwf : DbWf db)
    (hid : ∀ n, (f n).id = n) :
    (∀ a d, pairCount (insertDoc db f) a d =
      pairCount db a d +
        (if (f db.nextId).activityId == a && (f db.nextId).date == d then 1 else 0)) ∧
      DbWf (insertDoc db f) := by
  obtain ⟨hnodup, hbound⟩ := hwf
  refine ⟨fun a d => ?_, ?_, ?_⟩
  · unfold pairCount insertDoc
    by_cases hc : ((f db.nextId).activityId == a && (f db.nextId).date == d) = true
    · simp [List.filter_append, hc]
    · simp only [Bool.not_eq_true] at hc
      simp [List.filter_append, hc]
  · simp only [insertDoc, List.map_append, List.map_cons, List.map_nil]
    rw [List.nodup_append]
    refine ⟨hnodup, by simp, ?_⟩
    intro x hx hx2
    simp only [List.mem_singleton] at hx2
    subst hx2
    simp only [List.mem_map] at hx
    obtain ⟨e, he, hids⟩ := hx
    rw [hid] at hids
    exact absurd hids (Nat.ne_of_lt (hbound e he))
  · intro e he
    simp only [insertDoc, List.mem_append, List.mem_singleton] at he
    rcases he with he | rfl
    · exact Nat.lt_succ_of_lt (hbound e he)
    · rw [hid]
      exact Nat.lt_succ_self _

theorem findEntry_none_pairCount (db : Db) (a : ActivityId) (d : String)
    (h : findEntry db a d = none) : pairCount db a d = 0 := by
  unfold findEntry at h
  rw [List.find?_eq_none] at h
  unfold pairCount
  rw [List.length_eq_zero, List.filter_eq_nil_iff]
  intro e he
  exact h e he

theorem applySubmit_step (db : Db) (op : SubmitOp) (i : Nat) (db' : Db)
    (hwf : DbWf db) (h : applySubmit db op = .ok (i, db')) :
    DbWf db' ∧ ∀ a d, pairCount db' a d ≤ max (pairCount db a d) 1 := by
  have main : ∀ (pf : (∀ a d, pairCount db' a d = pairCount db a d) ∨
      (∃ a0 d0, findEntry db a0 d0 = none ∧
        ∀ a d, pairCount db' a d =
          pairCount db a d + (if a0 == a && d0 == d then 1 else 0))),
      DbWf db' → DbWf db' ∧ ∀ a d, pairCount db' a d ≤ max (pairCount db a d) 1 := by
    intro pf hwf'
    refine ⟨hwf', fun a d => ?_⟩
    rcases pf with hp | ⟨a0, d0, hnone, hp⟩
    · rw [hp]; exact Nat.le_max_left _ _
    · rw [hp]
      by_cases hc : (a0 == a && d0 == d) = true
      · simp only [beq_iff_eq, Bool.and_eq_true] at hc
        obtain ⟨rfl, rfl⟩ := hc
        have := findEntry_none_pairCount db a0 d0 hnone
        simp [this]
      · simp only [Bool.not_eq_true] at hc
        simp only [hc, if_false, Nat.add_zero]
        exact Nat.le_max_left _ _
  cases op with
  | forecast auth now args =>
    simp only [applySubmit] at h
    rcases auth with _ | userId <;> simp only [submitForecast] at h
    · exact absurd h (by simp)
    · split at h
      · exact absurd h (by simp)
      · rename_i activity hact
        by_cases hacc : checkProjectAccess db userId activity.projectId = false
        · rw [if_pos hacc] at h
          exact absurd h (by simp)
        · rw [if_neg hacc] at h
          split at h
          · rename_i existing hfe
            simp only [Except.ok.injEq, Prod.mk.injEq] at h
            obtain ⟨rfl, rfl⟩ := h
            simp only [findEntry] at hfe
            have hex := List.mem_of_find?_eq_some hfe
            exact main
              (Or.inl (patchEntry_step db existing _ hex (by rfl) (by rfl) (by rfl) hwf).1)
              (patchEntry_step db existing _ hex (by rfl) (by rfl) (by rfl) hwf).2
          · rename_i hfe
            simp only [Except.ok.injEq, Prod.mk.injEq] at h
            obtain ⟨rfl, rfl⟩ := h
            exact main (Or.inr ⟨args.activityId, args.date, hfe,
              fun a d => (insertDoc_step db _ hwf (by exact fun n => rfl)).1 a d⟩)
              (insertDoc_step db _ hwf (by exact fun n => rfl)).2
  | actuals auth now args =>
    simp only [applySubmit] at h
    rcases auth with _ | userId <;> simp only [submitActuals] at h
    · exact absurd h (by simp)
    · split at h
      · exact absurd h (by simp)
      · rename_i activity hact
        by_cases hacc : checkProjectAccess db userId activity.projectId = false
        · rw [if_pos hacc] at h
          exact absurd h (by simp)
        · rw [if_neg hacc] at h
          split at h
          · rename_i existing hfe
            simp only [Except.ok.injEq, Prod.mk.injEq] at h
            obtain ⟨rfl, rfl⟩ := h
            simp only [findEntry] at hfe
            have hex := List.mem_of_find?_eq_some hfe
            exact main
              (Or.inl (patchEntry_step db existing _ hex (by rfl) (by rfl) (by rfl) hwf).1)
              (patchEntry_step db existing _ hex (by rfl) (by rfl) (by rfl) hwf).2
          · rename_i hfe
            simp only [Except.ok.injEq, Prod.mk.injEq] at h
            obtain ⟨rfl, rfl⟩ := h
            exact main (Or.inr ⟨args.activityId, args.date, hfe,
              fun a d => (insertDoc_step db _ hwf (by exact fun n => rfl)).1 a d⟩)
              (insertDoc_step db _ hwf (by exact fun n => rfl)).2
  | entry auth now args =>
    simp only [applySubmit] at h
    rcases auth with _ | userId <;> simp only [submitEntry] at h
    · exact absurd h (by simp)
    · split at h
      · exact absurd h (by simp)
      · rename_i activity hact
        by_cases hacc : checkProjectAccess db userId activity.projectId = false
        · rw [if_pos hacc] at h
          exact absurd h (by simp)
        · rw [if_neg hacc] at h
          split at h
          · rename_i existing hfe
            simp only [Except.ok.injEq, Prod.mk.injEq] at h
            obtain ⟨rfl, rfl⟩ := h
            simp only [findEntry] at hfe
            have hex := List.mem_of_find?_eq_some hfe
            exact main
              (Or.inl (patchEntry_step db existing _ hex (by rfl) (by rfl) (by rfl) hwf).1)
              (patchEntry_step db existing _ hex (by rfl) (by rfl) (by rfl) hwf).2
          · rename_i hfe
            simp only [Except.ok.injEq, Prod.mk.injEq] at h
            obtain ⟨rfl, rfl⟩ := h
            exact main (Or.inr ⟨args.activityId, args.date, hfe,
              fun a d => (insertDoc_step db _ hwf (by exact fun n => rfl)).1 a d⟩)
              (insertDoc_step db _ hwf (by exact fun n => rfl)).2

/-- C2: starting from a well-formed store holding at most one entry for an
(activityId, date) pair, any finite sequence of successful submitForecast /
submitActuals / submitEntry calls (run sequentially) leaves at most one entry
for that pair — each mutation looks up the existing entry and patches it,
inserting only when absent. -/
theorem runSubmits_atMostOnePerPair (db : Db) (ops : List SubmitOp) (db' : Db)
    (a : ActivityId) (d : String) (hwf : DbWf db)
    (h : runSubmits db ops = some db') (h1 : pairCount db a d ≤ 1) :
    pairCount db' a d ≤ 1 := by
  induction ops generalizing db with
  | nil =>
    simp only [runSubmits, Option.some.injEq] at h
    subst h
    exact h1
  | cons op ops ih =>
    simp only [runSubmits] at h
    rcases hop : applySubmit db op with e | ⟨i, db1⟩ <;> rw [hop] at h
    · exact absurd h (by simp)
    · have hstep := applySubmit_step db op i db1 hwf hop
      refine ih db1 hstep.1 h ?_
      have := hstep.2 a d
      have hmax : max (pairCount db a d) 1 = 1 := by omega
      omega

def c2Activity : Activity :=
  { id := "act1", scopeId := "scope1", projectId := "proj1", name := "Trenching", unit := "lf" }

def c2Db : Db :=
  { userProfiles := []
    projectAssignments := []
    scopeAssignments := []
    projects := [{ id := "proj1", name := "P1", status := ProjectStatus.active }]
    scopes := [{ id := "scope1", projectId := "proj1", name := "Civil" }]
    activities := [c2Activity]
    dailyEntries := []
    nextId := 0 }

def c2Ops : List SubmitOp :=
  [ .forecast (some "user1") 0
      { activityId := "act1", date := "2024-06-01", forecastQuantity := 100,
        forecastCrewSize := 5, forecastHoursPerWorker := 8, notes := none },
    .actuals (some "user1") 1
      { activityId := "act1", date := "2024-06-01", actualQuantity := 90,
        actualCrewSize := 5, actualHoursPerWorker := 8, notes := none } ]

/-- Witness for C2: a forecast followed by actuals for the same pair leaves a
single entry. -/
theorem runSubmits_atMostOnePerPair_witness :
    ∃ db', runSubmits c2Db c2Ops = some db' ∧ pairCount db' "act1" "2024-06-01" ≤ 1 := by
  refine ⟨(runSubmits c2Db c2Ops).getD c2Db, ?_, ?_⟩
  · rfl
  · exact runSubmits_atMostOnePerPair c2Db c2Ops _ "act1" "2024-06-01"
      ⟨by decide, by decide⟩ rfl (by decide)

theorem checkProjectAccess_of_no_profile (db : Db) (u : UserId) (p : ProjectId)
    (hprof : db.userProfiles.find? (fun q => q.userId == u) = none) :
    checkProjectAccess db u p = true := by
  simp [checkProjectAccess, hprof]

theorem mem_patchEntry_self (db : Db) (ex upd : DailyEntry) (hex : ex ∈ db.dailyEntries) :
    upd ∈ (patchEntry db ex.id upd).dailyEntries := by
  simp only [patchEntry, List.mem_map]
  exact ⟨ex, hex, by simp⟩

theorem mem_patchEntry_other (db : Db) (exid : Nat) (upd e : DailyEntry)
    (he : e ∈ db.dailyEntries) (hne : e.id ≠ exid) :
    e ∈ (patchEntry db exid upd).dailyEntries := by
  simp only [patchEntry, List.mem_map]
  exact ⟨e, he, by simp [hne]⟩

theorem mem_insertDoc_self (db : Db) (f : Nat → DailyEntry) :
    f db.nextId ∈ (insertDoc db f).dailyEntries := by
  simp [insertDoc]

/-- C10: an authenticated user with no userProfile record passes the access
gate on every project, and none of the three entry-write mutations performs
any further profile or role check, so each of them succeeds on any existing
activity. -/
theorem unprofiled_user_can_submit (db : Db) (u : UserId) (now : ℤ)
    (hprof : db.userProfiles.find? (fun q => q.userId == u) = none) :
    (∀ args : ForecastArgs, ∀ act,
      db.activities.find? (fun a => a.id == args.activityId) = some act →
      ∃ r, submitForecast db (some u) now args = .ok r) ∧
    (∀ args : ActualsArgs, ∀ act,
      db.activities.find? (fun a => a.id == args.activityId) = some act →
      ∃ r, submitActuals db (some u) now args = .ok r) ∧
    (∀ args : EntryArgs, ∀ act,
      db.activities.find? (fun a => a.id == args.activityId) = some act →
      ∃ r, submitEntry db (some u) now args = .ok r) := by
  have hacc : ∀ p, checkProjectAccess db u p = true :=
    fun p => checkProjectAccess_of_no_profile db u p hprof
  refine ⟨fun args act hact => ?_, fun args act hact => ?_, fun args act hact => ?_⟩ <;>
    simp only [submitForecast, submitActuals, submitEntry, hact, hacc, Bool.true_eq_false,
      if_false] <;>
    rcases hfe : findEntry db args.activityId args.date with _ | existing <;>
    simp [hfe]

def c10Args : ForecastArgs :=
  { activityId := "act1", date := "2024-06-01", forecastQuantity := 100,
    forecastCrewSize := 5, forecastHoursPerWorker := 8, notes := none }

/-- Witness for C10: a profile-less user's submitForecast succeeds on an
existing activity. -/
theorem unprofiled_user_can_submit_witness :
    ∃ r, submitForecast c2Db (some "newuser") 0 c10Args = .ok r :=
  (unprofiled_user_can_submit c2Db "newuser" 0 (by decide)).1 c10Args c2Activity (by decide)

def c3FArgs : ForecastArgs :=
  { activityId := "act1", date := "2024-06-01", forecastQuantity := 100,
    forecastCrewSize := 5, forecastHoursPerWorker := 8, notes := some "morning note" }

def c3EntryArgs : EntryArgs :=
  { activityId := "act1", date := "2024-06-01",
    forecastQuantity := none, forecastCrewSize := none, forecastHoursPerWorker := none,
    actualQuantity := some 90, actualCrewSize := some 5, actualHoursPerWorker := some 8,
    notes := none }

def c3Db1 : Db :=
  match submitForecast c2Db (some "user1") 0 c3FArgs with
  | .ok (_, d) => d
  | .error _ => c2Db

def c3Db2 : Db :=
  match submitEntry c3Db1 (some "user1") 1 c3EntryArgs with
  | .ok (_, d) => d
  | .error _ => c3Db1

/-- Counterexample for C3: after a forecast with notes, a submitEntry call
supplying only actual fields clears the stored forecast fields and notes —
its patch document spells out every key and Convex removes fields patched
with `undefined` — rather than leaving the omitted stored fields untouched. -/
theorem submitEntry_clears_omitted_fields :
    (submitForecast c2Db (some "user1") 0 c3FArgs).isOk = true ∧
    (submitEntry c3Db1 (some "user1") 1 c3EntryArgs).isOk = true ∧
    c3Db1.dailyEntries.map (fun e => (e.forecastQuantity, e.notes)) =
      [(some 100, some "morning note")] ∧
    c3Db2.dailyEntries.map
      (fun e => (e.forecastQuantity, e.forecastHours, e.notes, e.actualQuantity)) =
      [(none, none, none, some 90)] := by
  decide

/-- C3 (amended): when an entry exists for (activityId, date), submitForecast
and submitActuals patch only their own side's fields, with notes and foreman
name defaulting to the previous stored values, and leave the other side's
stored fields untouched; submitEntry instead overwrites every
forecast/actual field, notes and foreman name with the values of that call,
clearing the ones it omits. -/
theorem submit_patch_frame (db : Db) (u : UserId) (now : ℤ) :
    (∀ args : ForecastArgs, ∀ act ex,
      db.activities.find? (fun a => a.id == args.activityId) = some act →
      checkProjectAccess db u act.projectId = true →
      findEntry db args.activityId args.date = some ex →
      ∃ db', submitForecast db (some u) now args = .ok (ex.id, db') ∧
        ∃ e' ∈ db'.dailyEntries, e'.id = ex.id ∧
          e'.forecastQuantity = some args.forecastQuantity ∧
          e'.forecastCrewSize = some args.forecastCrewSize ∧
          e'.forecastHoursPerWorker = some args.forecastHoursPerWorker ∧
          e'.forecastHours = some (args.forecastCrewSize * args.forecastHoursPerWorker) ∧
          e'.actualQuantity = ex.actualQuantity ∧
          e'.actualCrewSize = ex.actualCrewSize ∧
          e'.actualHoursPerWorker = ex.actualHoursPerWorker ∧
          e'.actualHours = ex.actualHours ∧
          e'.notes = args.notes.orElse (fun _ => ex.notes) ∧
          e'.foremanName = (resolveForemanName db act.scopeId u).orElse (fun _ => ex.foremanName) ∧
          (∀ e ∈ db.dailyEntries, e.id ≠ ex.id → e ∈ db'.dailyEntries)) ∧
    (∀ args : ActualsArgs, ∀ act ex,
      db.activities.find? (fun a => a.id == args.activityId) = some act →
      checkProjectAccess db u act.projectId = true →
      findEntry db args.activityId args.date = some ex →
      ∃ db', submitActuals db (some u) now args = .ok (ex.id, db') ∧
        ∃ e' ∈ db'.dailyEntries, e'.id = ex.id ∧
          e'.actualQuantity = some args.actualQuantity ∧
          e'.actualCrewSize = some args.actualCrewSize ∧
          e'.actualHoursPerWorker = some args.actualHoursPerWorker ∧
          e'.actualHours = some (args.actualCrewSize * args.actualHoursPerWorker) ∧
          e'.forecastQuantity = ex.forecastQuantity ∧
          e'.forecastCrewSize = ex.forecastCrewSize ∧
          e'.forecastHoursPerWorker = ex.forecastHoursPerWorker ∧
          e'.forecastHours = ex.forecastHours ∧
          e'.notes = args.notes.orElse (fun _ => ex.notes) ∧
          e'.foremanName = (resolveForemanName db act.scopeId u).orElse (fun _ => ex.foremanName) ∧
          (∀ e ∈ db.dailyEntries, e.id ≠ ex.id → e ∈ db'.dailyEntries)) ∧
    (∀ args : EntryArgs, ∀ act ex,
      db.activities.find? (fun a => a.id == args.activityId) = some act →
      checkProjectAccess db u act.projectId = true →
      findEntry db args.activityId args.date = some ex →
      ∃ db', submitEntry db (some u) now args = .ok (ex.id, db') ∧
        ∃ e' ∈ db'.dailyEntries, e'.id = ex.id ∧
          e'.forecastQuantity = args.forecastQuantity ∧
          e'.forecastCrewSize = args.forecastCrewSize ∧
          e'.forecastHoursPerWorker = args.forecastHoursPerWorker ∧
          e'.forecastHours = derivedHours args.forecastCrewSize args.forecastHoursPerWorker ∧
          e'.actualQuantity = args.actualQuantity ∧
          e'.actualCrewSize = args.actualCrewSize ∧
          e'.actualHoursPerWorker = args.actualHoursPerWorker ∧
          e'.actualHours = derivedHours args.actualCrewSize args.actualHoursPerWorker ∧
          e'.notes = args.notes ∧
          e'.foremanName = resolveForemanName db act.scopeId u ∧
          (∀ e ∈ db.dailyEntries, e.id ≠ ex.id → e ∈ db'.dailyEntries)) := by
  refine ⟨fun args act ex hact hacc hfe => ?_, fun args act ex hact hacc hfe => ?_,
    fun args act ex hact hacc hfe => ?_⟩ <;>
  · have hex : ex ∈ db.dailyEntries :=
      List.mem_of_find?_eq_some (by simpa [findEntry] using hfe)
    simp only [submitForecast, submitActuals, submitEntry, hact, hacc, hfe,
      Bool.true_eq_false, if_false]
    refine ⟨_, rfl, _, mem_patchEntry_self db ex _ hex, ?_⟩
    exact ⟨rfl, rfl, rfl, rfl, rfl, rfl, rfl, rfl, rfl, rfl, rfl,
      fun e he hne => mem_patchEntry_other db ex.id _ e he hne⟩

def dummyEntry : DailyEntry :=
  { id := 0, activityId := "", scopeId := "", projectId := "", date := "", userId := ""
    foremanName := none, forecastQuantity := none, forecastCrewSize := none
    forecastHoursPerWorker := none, forecastHours := none, actualQuantity := none
    actualCrewSize := none, actualHoursPerWorker := none, actualHours := none
    notes := none, createdBy := none, createdAt := none, updatedBy := none, updatedAt := none }

def c3Entry : DailyEntry := c3Db1.dailyEntries.headD dummyEntry

def c3AArgs : ActualsArgs :=
  { activityId := "act1", date := "2024-06-01", actualQuantity := 90,
    actualCrewSize := 5, actualHoursPerWorker := 8, notes := none }

/-- Witness for the amended C3: submitting actuals over the stored forecast
entry patches the actual side and leaves the forecast side untouched. -/
theorem submit_patch_frame_witness :
    ∃ db', submitActuals c3Db1 (some "user1") 1 c3AArgs = .ok (c3Entry.id, db') ∧
      ∃ e' ∈ db'.dailyEntries, e'.id = c3Entry.id ∧
        e'.actualQuantity = some c3AArgs.actualQuantity ∧
        e'.actualCrewSize = some c3AArgs.actualCrewSize ∧
        e'.actualHoursPerWorker = some c3AArgs.actualHoursPerWorker ∧
        e'.actualHours = some (c3AArgs.actualCrewSize * c3AArgs.actualHoursPerWorker) ∧
        e'.forecastQuantity = c3Entry.forecastQuantity ∧
        e'.forecastCrewSize = c3Entry.forecastCrewSize ∧
        e'.forecastHoursPerWorker = c3Entry.forecastHoursPerWorker ∧
        e'.forecastHours = c3Entry.forecastHours ∧
        e'.notes = c3AArgs.notes.orElse (fun _ => c3Entry.notes) ∧
        e'.foremanName = (resolveForemanName c3Db1 c2Activity.scopeId "user1").orElse
          (fun _ => c3Entry.foremanName) ∧
        (∀ e ∈ c3Db1.dailyEntries, e.id ≠ c3Entry.id → e ∈ db'.dailyEntries) :=
  (submit_patch_frame c3Db1 "user1" 1).2.1 c3AArgs c2Activity c3Entry rfl rfl rfl

/-- C4: each successful submission stores derived man-hours recomputed as
crewSize * hoursPerWorker from exactly the values supplied in that call;
submitEntry leaves a side's derived hours undefined when either input is
absent or zero. -/
theorem derived_hours_recomputed (db : Db) (u : UserId) (now : ℤ) :
    (∀ args : ForecastArgs, ∀ i db', submitForecast db (some u) now args = .ok (i, db') →
      ∃ e' ∈ db'.dailyEntries, e'.id = i ∧
        e'.forecastCrewSize = some args.forecastCrewSize ∧
        e'.forecastHoursPerWorker = some args.forecastHoursPerWorker ∧
        e'.forecastHours = some (args.forecastCrewSize * args.forecastHoursPerWorker)) ∧
    (∀ args : ActualsArgs, ∀ i db', submitActuals db (some u) now args = .ok (i, db') →
      ∃ e' ∈ db'.dailyEntries, e'.id = i ∧
        e'.actualCrewSize = some args.actualCrewSize ∧
        e'.actualHoursPerWorker = some args.actualHoursPerWorker ∧
        e'.actualHours = some (args.actualCrewSize * args.actualHoursPerWorker)) ∧
    (∀ args : EntryArgs, ∀ i db', submitEntry db (some u) now args = .ok (i, db') →
      ∃ e' ∈ db'.dailyEntries, e'.id = i ∧
        e'.forecastHours = derivedHours args.forecastCrewSize args.forecastHoursPerWorker ∧
        e'.actualHours = derivedHours args.actualCrewSize args.actualHoursPerWorker) ∧
    (∀ oc oh : Option ℚ, (oc = none ∨ oh = none ∨ oc = some 0 ∨ oh = some 0) →
      derivedHours oc oh = none) ∧
    (∀ c h : ℚ, c ≠ 0 → h ≠ 0 → derivedHours (some c) (some h) = some (c * h)) := by
  refine ⟨?_, ?_, ?_, ?_, ?_⟩
  case _ =>
    intro args i db' h
    simp only [submitForecast] at h
    split at h
    · exact absurd h (by simp)
    · rename_i act hact
      by_cases hacc : checkProjectAccess db u act.projectId = false
      · rw [if_pos hacc] at h
        exact absurd h (by simp)
      · rw [if_neg hacc] at h
        split at h
        · rename_i ex hfe
          simp only [Except.ok.injEq, Prod.mk.injEq] at h
          obtain ⟨rfl, rfl⟩ := h
          have hex : ex ∈ db.dailyEntries :=
            List.mem_of_find?_eq_some (by simpa [findEntry] using hfe)
          exact ⟨_, mem_patchEntry_self db ex _ hex, rfl, rfl, rfl, rfl⟩
        · rename_i hfe
          simp only [Except.ok.injEq, Prod.mk.injEq] at h
          obtain ⟨rfl, rfl⟩ := h
          exact ⟨_, mem_insertDoc_self db _, rfl, rfl, rfl, rfl⟩
  case _ =>
    intro args i db' h
    simp only [submitActuals] at h
    split at h
    · exact absurd h (by simp)
    · rename_i act hact
      by_cases hacc : checkProjectAccess db u act.projectId = false
      · rw [if_pos hacc] at h
        exact absurd h (by simp)
      · rw [if_neg hacc] at h
        split at h
        · rename_i ex hfe
          simp only [Except.ok.injEq, Prod.mk.injEq] at h
          obtain ⟨rfl, rfl⟩ := h
          have hex : ex ∈ db.dailyEntries :=
            List.mem_of_find?_eq_some (by simpa [findEntry] using hfe)
          exact ⟨_, mem_patchEntry_self db ex _ hex, rfl, rfl, rfl, rfl⟩
        · rename_i hfe
          simp only [Except.ok.injEq, Prod.mk.injEq] at h
          obtain ⟨rfl, rfl⟩ := h
          exact ⟨_, mem_insertDoc_self db _, rfl, rfl, rfl, rfl⟩
  case _ =>
    intro args i db' h
    simp only [submitEntry] at h
    split at h
    · exact absurd h (by simp)
    · rename_i act hact
      by_cases hacc : checkProjectAccess db u act.projectId = false
      · rw [if_pos hacc] at h
        exact absurd h (by simp)
      · rw [if_neg hacc] at h
        split at h
        · rename_i ex hfe
          simp only [Except.ok.injEq, Prod.mk.injEq] at h
          obtain ⟨rfl, rfl⟩ := h
          have hex : ex ∈ db.dailyEntries :=
            List.mem_of_find?_eq_some (by simpa [findEntry] using hfe)
          exact ⟨_, mem_patchEntry_self db ex _ hex, rfl, rfl, rfl⟩
        · rename_i hfe
          simp only [Except.ok.injEq, Prod.mk.injEq] at h
          obtain ⟨rfl, rfl⟩ := h
          exact ⟨_, mem_insertDoc_self db _, rfl, rfl, rfl⟩
  case _ =>
    rintro oc oh (rfl | rfl | rfl | rfl)
    · rfl
    · cases oc <;> rfl
    · cases oh with
      | none => rfl
      | some h2 => simp [derivedHours]
    · cases oc with
      | none => rfl
      | some c => simp [derivedHours]
  case _ =>
    intro c h hc hh
    simp [derivedHours, hc, hh]

/-- Witness for C4: the stored entry after the concrete forecast submission
carries forecastHours = 5 * 8. -/
theorem derived_hours_recomputed_witness :
    ∃ e' ∈ c3Db1.dailyEntries, e'.id = 0 ∧
      e'.forecastCrewSize = some c3FArgs.forecastCrewSize ∧
      e'.forecastHoursPerWorker = some c3FArgs.forecastHoursPerWorker ∧
      e'.forecastHours = some (c3FArgs.forecastCrewSize * c3FArgs.forecastHoursPerWorker) :=
  (derived_hours_recomputed c2Db "user1" 0).1 c3FArgs 0 c3Db1 rfl

def c1Db : Db :=
  { userProfiles := [{ userId := "user1", name := "Ann", role := Role.construction_manager }]
    projectAssignments := [{ userId := "user1", projectId := "proj1" }]
    scopeAssignments := []
    projects := []
    scopes := []
    activities := []
    dailyEntries := []
    nextId := 0 }

/-- Witness for C1: a construction_manager with an assignment row for proj1 is
allowed on proj1. -/
theorem checkProjectAccess_cases_witness : checkProjectAccess c1Db "user1" "proj1" = true :=
  ((checkProjectAccess_cases c1Db "user1" "proj1").2.2
      { userId := "user1", name := "Ann", role := Role.construction_manager }
      (by decide) (by decide)).mpr
    ⟨{ userId := "user1", projectId := "proj1" }, by decide, rfl, rfl⟩

structure Totals where
  tfq : ℚ
  taq : ℚ
  tfh : ℚ
  tah : ℚ
deriving DecidableEq

/-- addEntryTotals: one iteration of the KPI accumulation loop shared by all
the dashboard KPI queries (`?? 0` on each optional field). -/
def addEntryTotals (t : Totals) (e : DailyEntry) : Totals :=
  { tfq := t.tfq + e.forecastQuantity.getD 0
    taq := t.taq + e.actualQuantity.getD 0
    tfh := t.tfh + e.forecastHours.getD 0
    tah := t.tah + e.actualHours.getD 0 }

def sumEntries (entries : List DailyEntry) : Totals :=
  entries.foldl addEntryTotals ⟨0, 0, 0, 0⟩

structure ProjectKPIs where
  totalForecastQuantity : ℚ
  totalActualQuantity : ℚ
  totalForecastHours : ℚ
  totalActualHours : ℚ
  quantityVariance : ℚ
  hoursVariance : ℚ
  productionRate : ℚ
  entriesCount : Nat
deriving DecidableEq

/-- getProjectKPIs from `dashboard.ts`. -/
def getProjectKPIs (db : Db) (auth : Option UserId) (projectId : ProjectId) :
    Option ProjectKPIs :=
  match auth with
  | none => none
  | some userId =>
    if checkProjectAccess db userId projectId = false then none
    else
      let entries := db.dailyEntries.filter (fun e => e.projectId == projectId)
      let t := sumEntries entries
      some
        { totalForecastQuantity := t.tfq
          totalActualQuantity := t.taq
          totalForecastHours := t.tfh
          totalActualHours := t.tah
          quantityVariance := t.taq - t.tfq
          hoursVariance := t.tah - t.tfh
          productionRate := if t.tah > 0 then t.taq / t.tah else 0
          entriesCount := entries.length }

structure ScopeKPIs where
  scopeName : String
  totalForecastQuantity : ℚ
  totalActualQuantity : ℚ
  totalForecastHours : ℚ
  totalActualHours : ℚ
  quantityVariance : ℚ
  productionRate : ℚ
  entriesCount : Nat
deriving DecidableEq

/-- getScopeKPIs from `dashboard.ts`. -/
def getScopeKPIs (db : Db) (auth : Option UserId) (scopeId : ScopeId) :
    Option ScopeKPIs :=
  match auth with
  | none => none
  | some userId =>
    match db.scopes.find? (fun s => s.id == scopeId) with
    | none => none
    | some scope =>
      if checkProjectAccess db userId scope.projectId = false then none
      else
        let entries := db.dailyEntries.filter (fun e => e.scopeId == scopeId)
        let t := sumEntries entries
        some
          { scopeName := scope.name
            totalForecastQuantity := t.tfq
            totalActualQuantity := t.taq
            totalForecastHours := t.tfh
            totalActualHours := t.tah
            quantityVariance := t.taq - t.tfq
            productionRate := if t.tah > 0 then t.taq / t.tah else 0
            entriesCount := entries.length }

structure ActivityKPIs where
  activityName : String
  activityUnit : String
  scopeName : String
  totalForecastQuantity : ℚ
  totalActualQuantity : ℚ
  totalForecastHours : ℚ
  totalActualHours : ℚ
  quantityVariance : ℚ
  productionRate : ℚ
  entriesCount : Nat
deriving DecidableEq

/-- getActivityKPIs from `dashboard.ts`. -/
def getActivityKPIs (db : Db) (auth : Option UserId) (activityId : ActivityId) :
    Option ActivityKPIs :=
  match auth with
  | none => none
  | some userId =>
    match db.activities.find? (fun a => a.id == activityId) with
    | none => none
    | some activity =>
      if checkProjectAccess db userId activity.projectId = false then none
      else
        let scopeName :=
          ((db.scopes.find? (fun s => s.id == activity.scopeId)).map
            (fun s => s.name)).getD "Unknown"
        let entries := db.dailyEntries.filter (fun e => e.activityId == activityId)
        let t := sumEntries entries
        some
          { activityName := activity.name
            activityUnit := activity.unit
            scopeName := scopeName
            totalForecastQuantity := t.tfq
            totalActualQuantity := t.taq
            totalForecastHours := t.tfh
            totalActualHours := t.tah
            quantityVariance := t.taq - t.tfq
            productionRate := if t.tah > 0 then t.taq / t.tah else 0
            entriesCount := entries.length }

structure AllKPIs where
  totalProjects : Nat
  activeProjects : Nat
  totalForecastQuantity : ℚ
  totalActualQuantity : ℚ
  totalForecastHours : ℚ
  totalActualHours : ℚ
  quantityVariance : ℚ
  hoursVariance : ℚ
  productionRate : ℚ
  efficiency : ℚ
  totalEntries : Nat
deriving DecidableEq

/-- getAllProjectsKPIs from `dashboard.ts` (Control Center only). -/
def getAllProjectsKPIs (db : Db) (auth : Option UserId) : Option AllKPIs :=
  match auth with
  | none => none
  | some userId =>
    if isControlCenter db userId = false then none
    else
      let t := sumEntries db.dailyEntries
      some
        { totalProjects := db.projects.length
          activeProjects :=
            (db.projects.filter (fun p => p.status == ProjectStatus.active)).length
          totalForecastQuantity := t.tfq
          totalActualQuantity := t.taq
          totalForecastHours := t.tfh
          totalActualHours := t.tah
          quantityVariance := t.taq - t.tfq
          hoursVariance := t.tah - t.tfh
          productionRate := if t.tah > 0 then t.taq / t.tah else 0
          efficiency := if t.tfq > 0 then t.taq / t.tfq * 100 else 0
          totalEntries := db.dailyEntries.length }

theorem foldl_addEntryTotals (l : List DailyEntry) : ∀ t : Totals,
    l.foldl addEntryTotals t =
      { tfq := t.tfq + (l.map (fun e => e.forecastQuantity.getD 0)).sum
        taq := t.taq + (l.map (fun e => e.actualQuantity.getD 0)).sum
        tfh := t.tfh + (l.map (fun e => e.forecastHours.getD 0)).sum
        tah := t.tah + (l.map (fun e => e.actualHours.getD 0)).sum } := by
  induction l with
  | nil => intro t; simp
  | cons e l ih =>
    intro t
    rw [List.foldl_cons, ih]
    simp only [addEntryTotals, List.map_cons, List.sum_cons, Totals.mk.injEq]
    refine ⟨by ring, by ring, by ring, by ring⟩

theorem sumEntries_spec (l : List DailyEntry) :
    (sumEntries l).tfq = (l.map (fun e => e.forecastQuantity.getD 0)).sum ∧
    (sumEntries l).taq = (l.map (fun e => e.actualQuantity.getD 0)).sum ∧
    (sumEntries l).tfh = (l.map (fun e => e.forecastHours.getD 0)).sum ∧
    (sumEntries l).tah = (l.map (fun e => e.actualHours.getD 0)).sum := by
  unfold sumEntries
  rw [foldl_addEntryTotals]
  exact ⟨by simp, by simp, by simp, by simp⟩

/-- C5: every KPI query (project, scope, activity, all-projects) returns
totals that are the sums of its selected entries' forecast/actual quantity
and hours fields with absent fields treated as 0, quantityVariance =
totalActualQuantity - totalForecastQuantity, and productionRate =
totalActualQuantity / totalActualHours when totalActualHours > 0 and 0
otherwise. -/
theorem kpi_totals_spec (db : Db) (auth : Option UserId) :
    (∀ pid k, getProjectKPIs db auth pid = some k →
      k.totalForecastQuantity = ((db.dailyEntries.filter (fun e => e.projectId == pid)).map
        (fun e => e.forecastQuantity.getD 0)).sum ∧
      k.totalActualQuantity = ((db.dailyEntries.filter (fun e => e.projectId == pid)).map
        (fun e => e.actualQuantity.getD 0)).sum ∧
      k.totalForecastHours = ((db.dailyEntries.filter (fun e => e.projectId == pid)).map
        (fun e => e.forecastHours.getD 0)).sum ∧
      k.totalActualHours = ((db.dailyEntries.filter (fun e => e.projectId == pid)).map
        (fun e => e.actualHours.getD 0)).sum ∧
      k.quantityVariance = k.totalActualQuantity - k.totalForecastQuantity ∧
      k.productionRate =
        if k.totalActualHours > 0 then k.totalActualQuantity / k.totalActualHours else 0) ∧
    (∀ sid k, getScopeKPIs db auth sid = some k →
      k.totalForecastQuantity = ((db.dailyEntries.filter (fun e => e.scopeId == sid)).map
        (fun e => e.forecastQuantity.getD 0)).sum ∧
      k.totalActualQuantity = ((db.dailyEntries.filter (fun e => e.scopeId == sid)).map
        (fun e => e.actualQuantity.getD 0)).sum ∧
      k.totalForecastHours = ((db.dailyEntries.filter (fun e => e.scopeId == sid)).map
        (fun e => e.forecastHours.getD 0)).sum ∧
      k.totalActualHours = ((db.dailyEntries.filter (fun e => e.scopeId == sid)).map
        (fun e => e.actualHours.getD 0)).sum ∧
      k.quantityVariance = k.totalActualQuantity - k.totalForecastQuantity ∧
      k.productionRate =
        if k.totalActualHours > 0 then k.totalActualQuantity / k.totalActualHours else 0) ∧
    (∀ aid k, getActivityKPIs db auth aid = some k →
      k.totalForecastQuantity = ((db.dailyEntries.filter (fun e => e.activityId == aid)).map
        (fun e => e.forecastQuantity.getD 0)).sum ∧
      k.totalActualQuantity = ((db.dailyEntries.filter (fun e => e.activityId == aid)).map
        (fun e => e.actualQuantity.getD 0)).sum ∧
      k.totalForecastHours = ((db.dailyEntries.filter (fun e => e.activityId == aid)).map
        (fun e => e.forecastHours.getD 0)).sum ∧
      k.totalActualHours = ((db.dailyEntries.filter (fun e => e.activityId == aid)).map
        (fun e => e.actualHours.getD 0)).sum ∧
      k.quantityVariance = k.totalActualQuantity - k.totalForecastQuantity ∧
      k.productionRate =
        if k.totalActualHours > 0 then k.totalActualQuantity / k.totalActualHours else 0) ∧
    (∀ k, getAllProjectsKPIs db auth = some k →
      k.totalForecastQuantity = (db.dailyEntries.map (fun e => e.forecastQuantity.getD 0)).sum ∧
      k.totalActualQuantity = (db.dailyEntries.map (fun e => e.actualQuantity.getD 0)).sum ∧
      k.totalForecastHours = (db.dailyEntries.map (fun e => e.forecastHours.getD 0)).sum ∧
      k.totalActualHours = (db.dailyEntries.map (fun e => e.actualHours.getD 0)).sum ∧
      k.quantityVariance = k.totalActualQuantity - k.totalForecastQuantity ∧
      k.productionRate =
        if k.totalActualHours > 0 then k.totalActualQuantity / k.totalActualHours else 0) := by
  rcases auth with _ | u
  · exact ⟨fun pid k h => absurd h (by simp [getProjectKPIs]),
      fun sid k h => absurd h (by simp [getScopeKPIs]),
      fun aid k h => absurd h (by simp [getActivityKPIs]),
      fun k h => absurd h (by simp [getAllProjectsKPIs])⟩
  · refine ⟨fun pid k h => ?_, fun sid k h => ?_, fun aid k h => ?_, fun k h => ?_⟩
    · simp only [getProjectKPIs] at h
      by_cases hacc : checkProjectAccess db u pid = false
      · rw [if_pos hacc] at h
        exact absurd h (by simp)
      · rw [if_neg hacc] at h
        simp only [Option.some.injEq] at h
        subst h
        obtain ⟨h1, h2, h3, h4⟩ :=
          sumEntries_spec (db.dailyEntries.filter (fun e => e.projectId == pid))
        exact ⟨h1, h2, h3, h4, rfl, rfl⟩
    · simp only [getScopeKPIs] at h
      split at h
      · exact absurd h (by simp)
      · rename_i scope hs
        by_cases hacc : checkProjectAccess db u scope.projectId = false
        · rw [if_pos hacc] at h
          exact absurd h (by simp)
        · rw [if_neg hacc] at h
          simp only [Option.some.injEq] at h
          subst h
          obtain ⟨h1, h2, h3, h4⟩ :=
            sumEntries_spec (db.dailyEntries.filter (fun e => e.scopeId == sid))
          exact ⟨h1, h2, h3, h4, rfl, rfl⟩
    · simp only [getActivityKPIs] at h
      split at h
      · exact absurd h (by simp)
      · rename_i activity ha
        by_cases hacc : checkProjectAccess db u activity.projectId = false
        · rw [if_pos hacc] at h
          exact absurd h (by simp)
        · rw [if_neg hacc] at h
          simp only [Option.some.injEq] at h
          subst h
          obtain ⟨h1, h2, h3, h4⟩ :=
            sumEntries_spec (db.dailyEntries.filter (fun e => e.activityId == aid))
          exact ⟨h1, h2, h3, h4, rfl, rfl⟩
    · simp only [getAllProjectsKPIs] at h
      by_cases hcc : isControlCenter db u = false
      · rw [if_pos hcc] at h
        exact absurd h (by simp)
      · rw [if_neg hcc] at h
        simp only [Option.some.injEq] at h
        subst h
        obtain ⟨h1, h2, h3, h4⟩ := sumEntries_spec db.dailyEntries
        exact ⟨h1, h2, h3, h4, rfl, rfl⟩

def c5K : ProjectKPIs :=
  (getProjectKPIs c3Db1 (some "user1") "proj1").getD ⟨0, 0, 0, 0, 0, 0, 0, 0⟩

/-- Witness for C5: the project KPIs over the concrete one-entry store are the
sums of that entry's fields with the stated variance and rate. -/
theorem kpi_totals_spec_witness :
    c5K.totalForecastQuantity = ((c3Db1.dailyEntries.filter (fun e => e.projectId == "proj1")).map
      (fun e => e.forecastQuantity.getD 0)).sum ∧
    c5K.totalActualQuantity = ((c3Db1.dailyEntries.filter (fun e => e.projectId == "proj1")).map
      (fun e => e.actualQuantity.getD 0)).sum ∧
    c5K.totalForecastHours = ((c3Db1.dailyEntries.filter (fun e => e.projectId == "proj1")).map
      (fun e => e.forecastHours.getD 0)).sum ∧
    c5K.totalActualHours = ((c3Db1.dailyEntries.filter (fun e => e.projectId == "proj1")).map
      (fun e => e.actualHours.getD 0)).sum ∧
    c5K.quantityVariance = c5K.totalActualQuantity - c5K.totalForecastQuantity ∧
    c5K.productionRate =
      if c5K.totalActualHours > 0 then c5K.totalActualQuantity / c5K.totalActualHours else 0 :=
  (kpi_totals_spec c3Db1 (some "user1")).1 "proj1" c5K rfl

/-- charListLt: code-point lexicographic comparison of strings, the order
that JavaScript string `<`/`>=` and `localeCompare` induce on the ISO
"YYYY-MM-DD" date strings used throughout. -/
def charListLt : List Char → List Char → Bool
  | [], [] => false
  | [], _ :: _ => true
  | _ :: _, [] => false
  | a :: as, b :: bs =>
    if a.toNat < b.toNat then true
    else if b.toNat < a.toNat then false
    else charListLt as bs

def dateLe (s t : String) : Bool := charListLt s.data t.data || s == t

structure TrendAcc where
  totalForecast : ℚ
  totalActual : ℚ
  forecastHours : ℚ
  actualHours : ℚ
  weightedPFSum : ℚ
  weightSum : ℚ
deriving DecidableEq

def emptyTrendAcc : TrendAcc := ⟨0, 0, 0, 0, 0, 0⟩

/-- addTrendEntry: the per-entry accumulation of getTrendData — raw totals
always, and the weighted-PF sums only when forecastQuantity > 0 and
forecastHours > 0. -/
def addTrendEntry (a : TrendAcc) (e : DailyEntry) : TrendAcc :=
  let forecast := e.forecastQuantity.getD 0
  let actual := e.actualQuantity.getD 0
  let fh := e.forecastHours.getD 0
  let a1 : TrendAcc :=
    { totalForecast := a.totalForecast + forecast
      totalActual := a.totalActual + actual
      forecastHours := a.forecastHours + fh
      actualHours := a.actualHours + e.actualHours.getD 0
      weightedPFSum := a.weightedPFSum
      weightSum := a.weightSum }
  if 0 < forecast ∧ 0 < fh then
    { a1 with
      weightedPFSum := a1.weightedPFSum + (actual / forecast) * fh
      weightSum := a1.weightSum + fh }
  else a1

/-- updateAssoc: in-place update of the value stored under a key of a
JavaScript object modelled as an insertion-ordered association list. -/
def updateAssoc (m : List (String × TrendAcc)) (k : String) (f : TrendAcc → TrendAcc) :
    List (String × TrendAcc) :=
  m.map (fun p => if p.1 == k then (p.1, f p.2) else p)

/-- trendStep: `if (!byDate[entry.date]) byDate[entry.date] = init;` followed
by the `+=` updates, on the association-list model of the byDate record. -/
def trendStep (m : List (String × TrendAcc)) (e : DailyEntry) : List (String × TrendAcc) :=
  let m1 := if (m.find? (fun p => p.1 == e.date)).isSome then m
    else m ++ [(e.date, emptyTrendAcc)]
  updateAssoc m1 e.date (fun a => addTrendEntry a e)

def groupTrendByDate (entries : List DailyEntry) : List (String × TrendAcc) :=
  entries.foldl trendStep []

structure TrendPoint where
  date : String
  productionFactor : ℚ
  forecastHours : ℚ
  actualHours : ℚ
  totalForecast : ℚ
  totalActual : ℚ
deriving DecidableEq

def trendPointOf (p : String × TrendAcc) : TrendPoint :=
  { date := p.1
    productionFactor := if p.2.weightSum > 0 then p.2.weightedPFSum / p.2.weightSum else 0
    forecastHours := p.2.forecastHours
    actualHours := p.2.actualHours
    totalForecast := p.2.totalForecast
    totalActual := p.2.totalActual }

/-- getTrendData from `dashboard.ts`: filter the project's entries to the
date range, group by date accumulating weighted production-factor sums,
convert (Object.entries order = key insertion order), and sort ascending by
date string. -/
def getTrendData (db : Db) (auth : Option UserId) (projectId : ProjectId)
    (startDate endDate : String) : List TrendPoint :=
  match auth with
  | none => []
  | some userId =>
    if checkProjectAccess db userId projectId = false then []
    else
      let entries := db.dailyEntries.filter (fun e => e.projectId == projectId)
      let filtered := entries.filter
        (fun e => dateLe startDate e.date && dateLe e.date endDate)
      let byDate := groupTrendByDate filtered
      (byDate.map trendPointOf).mergeSort (fun a b => dateLe a.date b.date)

/-- trendQualifying: the entries of one date that enter the weighted-PF
accumulation per the spec — forecastQuantity > 0 and forecastHours > 0. -/
def trendQualifying (entries : List DailyEntry) (d : String) : List DailyEntry :=
  entries.filter (fun e => e.date == d && decide (0 < e.forecastQuantity.getD 0) &&
    decide (0 < e.forecastHours.getD 0))

/-- weightedPF states the spec's formula: Σ(entryPF * forecastHours) /
Σ(forecastHours) over a date's qualifying entries, with entryPF =
actualQuantity / forecastQuantity, and 0 when the weight sum is 0. -/
def weightedPF (entries : List DailyEntry) (d : String) : ℚ :=
  let qual := trendQualifying entries d
  let wsum := (qual.map (fun e => e.forecastHours.getD 0)).sum
  if 0 < wsum then
    (qual.map (fun e =>
      (e.actualQuantity.getD 0 / e.forecastQuantity.getD 0) * e.forecastHours.getD 0)).sum / wsum
  else 0

theorem char_eq_of_toNat_eq (a b : Char) (h : a.toNat = b.toNat) : a = b :=
  Char.eq_of_val_eq (UInt32.eq_of_toBitVec_eq (BitVec.eq_of_toNat_eq h))

theorem charListLt_cons_iff (a b : Char) (as bs : List Char) :
    charListLt (a :: as) (b :: bs) = true ↔
      a.toNat < b.toNat ∨ (a.toNat = b.toNat ∧ charListLt as bs = true) := by
  simp only [charListLt]
  by_cases h1 : a.toNat < b.toNat
  · simp [h1]
  · by_cases h2 : b.toNat < a.toNat
    · rw [if_neg h1, if_pos h2]
      constructor
      · intro h
        exact absurd h (by simp)
      · rintro (hc | ⟨hc, _⟩)
        · exact absurd hc h1
        · exact absurd hc (by omega)
    · have h3 : a.toNat = b.toNat := by omega
      rw [if_neg h1, if_neg h2]
      simp [h1, h3]

theorem charListLt_trans : ∀ as bs cs, charListLt as bs = true → charListLt bs cs = true →
    charListLt as cs = true := by
  intro as
  induction as with
  | nil =>
    intro bs cs h1 h2
    cases bs with
    | nil => exact h2
    | cons b bs =>
      cases cs with
      | nil => exact absurd h2 (by simp [charListLt])
      | cons c cs => rfl
  | cons a as ih =>
    intro bs cs h1 h2
    cases bs with
    | nil => exact absurd h1 (by simp [charListLt])
    | cons b bs =>
      cases cs with
      | nil => exact absurd h2 (by simp [charListLt])
      | cons c cs =>
        rw [charListLt_cons_iff] at h1 h2 ⊢
        rcases h1 with h1 | ⟨h1e, h1r⟩ <;> rcases h2 with h2 | ⟨h2e, h2r⟩
        · exact Or.inl (by omega)
        · exact Or.inl (by omega)
        · exact Or.inl (by omega)
        · exact Or.inr ⟨by omega, ih bs cs h1r h2r⟩

theorem charListLt_total : ∀ as bs, charListLt as bs = true ∨ as = bs ∨
    charListLt bs as = true := by
  intro as
  induction as with
  | nil =>
    intro bs
    cases bs with
    | nil => exact Or.inr (Or.inl rfl)
    | cons b bs => exact Or.inl rfl
  | cons a as ih =>
    intro bs
    cases bs with
    | nil => exact Or.inr (Or.inr rfl)
    | cons b bs =>
      rcases Nat.lt_trichotomy a.toNat b.toNat with h | h | h
      · exact Or.inl ((charListLt_cons_iff a b as bs).mpr (Or.inl h))
      · rcases ih bs with h' | h' | h'
        · exact Or.inl ((charListLt_cons_iff a b as bs).mpr (Or.inr ⟨h, h'⟩))
        · exact Or.inr (Or.inl (by rw [char_eq_of_toNat_eq a b h, h']))
        · exact Or.inr (Or.inr ((charListLt_cons_iff b a bs as).mpr (Or.inr ⟨h.symm, h'⟩)))
      · exact Or.inr (Or.inr ((charListLt_cons_iff b a bs as).mpr (Or.inl h)))

theorem dateLe_trans (a b c : String) (h1 : dateLe a b = true) (h2 : dateLe b c = true) :
    dateLe a c = true := by
  simp only [dateLe, Bool.or_eq_true, beq_iff_eq] at h1 h2 ⊢
  rcases h1 with h1 | h1
  · rcases h2 with h2 | h2
    · exact Or.inl (charListLt_trans _ _ _ h1 h2)
    · subst h2
      exact Or.inl h1
  · subst h1
    exact h2

theorem dateLe_total (a b : String) : (dateLe a b || dateLe b a) = true := by
  simp only [dateLe, Bool.or_eq_true, beq_iff_eq]
  rcases charListLt_total a.data b.data with h | h | h
  · exact Or.inl (Or.inl h)
  · exact Or.inl (Or.inr (String.ext h))
  · exact Or.inr (Or.inl h)

/-- TrendInv: the byDate association list holds exactly the distinct dates of
the processed entries (keys unduplicated), and under each date the fold of
that date's entries. -/
def TrendInv (m : List (String × TrendAcc)) (processed : List DailyEntry) : Prop :=
  (m.map Prod.fst).Nodup ∧
  (∀ d, d ∈ m.map Prod.fst ↔ ∃ e ∈ processed, e.date = d) ∧
  (∀ p ∈ m, p.2 = (processed.filter (fun e => e.date == p.1)).foldl addTrendEntry emptyTrendAcc)

theorem updateAssoc_keys (m : List (String × TrendAcc)) (k : String) (f : TrendAcc → TrendAcc) :
    (updateAssoc m k f).map Prod.fst = m.map Prod.fst := by
  unfold updateAssoc
  rw [List.map_map]
  refine List.map_congr_left (fun p hp => ?_)
  by_cases h : (p.1 == k) = true
  · simp [Function.comp, h]
  · simp [Function.comp, h]

theorem keys_mem_iff_findIsSome (m : List (String × TrendAcc)) (k : String) :
    (m.find? (fun p => p.1 == k)).isSome = true ↔ k ∈ m.map Prod.fst := by
  rw [List.find?_isSome]
  constructor
  · rintro ⟨p, hp, hk⟩
    simp only [beq_iff_eq] at hk
    exact hk ▸ List.mem_map_of_mem Prod.fst hp
  · intro hk
    obtain ⟨p, hp, rfl⟩ := List.mem_map.mp hk
    exact ⟨p, hp, by simp⟩

theorem trendStep_inv (m : List (String × TrendAcc)) (pre : List DailyEntry) (e : DailyEntry)
    (h : TrendInv m pre) : TrendInv (trendStep m e) (pre ++ [e]) := by
  obtain ⟨hnd, hmem, hval⟩ := h
  by_cases hin : (m.find? (fun p => p.1 == e.date)).isSome = true
  · have hkd : e.date ∈ m.map Prod.fst := (keys_mem_iff_findIsSome m e.date).mp hin
    have hkeys : (trendStep m e).map Prod.fst = m.map Prod.fst := by
      simp only [trendStep, if_pos hin]
      exact updateAssoc_keys m e.date _
    refine ⟨by rw [hkeys]; exact hnd, ?_, ?_⟩
    · intro d
      rw [hkeys, hmem d]
      constructor
      · rintro ⟨e', he', rfl⟩
        exact ⟨e', by simp [he'], rfl⟩
      · rintro ⟨e', he', rfl⟩
        rcases List.mem_append.mp he' with he'' | he''
        · exact ⟨e', he'', rfl⟩
        · simp only [List.mem_singleton] at he''
          subst he''
          exact (hmem e'.date).mp hkd
    · intro p hp
      simp only [trendStep, if_pos hin, updateAssoc, List.mem_map] at hp
      obtain ⟨q, hq, rfl⟩ := hp
      by_cases hqk : (q.1 == e.date) = true
      · have hq1 : q.1 = e.date := by simpa using hqk
        rw [if_pos hqk]
        have hfe : [e].filter (fun e' => e'.date == q.1) = [e] := by
          simp [hq1]
        rw [List.filter_append, List.foldl_append, hfe]
        rw [← hval q hq]
        rfl
      · rw [if_neg hqk]
        have hke : (e.date == q.1) = false := by
          simp only [beq_eq_false_iff_ne, ne_eq]
          intro hc
          exact hqk (by simp [hc])
        have hfe : [e].filter (fun e' => e'.date == q.1) = [] := by
          simp [List.filter, hke]
        rw [List.filter_append, hfe, List.append_nil]
        exact hval q hq
  · have hnin : e.date ∉ m.map Prod.fst := by
      rw [← keys_mem_iff_findIsSome]
      simpa using hin
    have hstep : trendStep m e = updateAssoc (m ++ [(e.date, emptyTrendAcc)]) e.date
        (fun a => addTrendEntry a e) := by
      simp only [trendStep, if_neg hin]
    have hkeys : (trendStep m e).map Prod.fst = m.map Prod.fst ++ [e.date] := by
      rw [hstep, updateAssoc_keys, List.map_append]
      rfl
    refine ⟨?_, ?_, ?_⟩
    · rw [hkeys, List.nodup_append]
      refine ⟨hnd, by simp, ?_⟩
      intro x hx hx2
      simp only [List.mem_singleton] at hx2
      subst hx2
      exact hnin hx
    · intro d
      rw [hkeys]
      rw [List.mem_append, hmem d]
      constructor
      · rintro (⟨e', he', rfl⟩ | hd)
        · exact ⟨e', by simp [he'], rfl⟩
        · simp only [List.mem_singleton] at hd
          exact ⟨e, by simp, hd.symm⟩
      · rintro ⟨e', he', rfl⟩
        rcases List.mem_append.mp he' with he'' | he''
        · exact Or.inl ⟨e', he'', rfl⟩
        · simp only [List.mem_singleton] at he''
          subst he''
          exact Or.inr (by simp)
    · intro p hp
      rw [hstep] at hp
      simp only [updateAssoc, List.mem_map] at hp
      obtain ⟨q, hq, rfl⟩ := hp
      rcases List.mem_append.mp hq with hq' | hq'
      · have hqk : (q.1 == e.date) = false := by
          simp only [beq_eq_false_iff_ne, ne_eq]
          intro hc
          exact hnin (hc ▸ List.mem_map_of_mem Prod.fst hq')
        rw [hqk]
        simp only [Bool.false_eq_true, if_false]
        have hke : (e.date == q.1) = false := by
          simp only [beq_eq_false_iff_ne, ne_eq] at hqk ⊢
          exact fun hc => hqk hc.symm
        have hfe : [e].filter (fun e' => e'.date == q.1) = [] := by
          simp [List.filter, hke]
        rw [List.filter_append, hfe, List.append_nil]
        exact hval q hq'
      · simp only [List.mem_singleton] at hq'
        subst hq'
        simp only [beq_self_eq_true, if_true]
        have hpre : pre.filter (fun e' => e'.date == e.date) = [] := by
          rw [List.filter_eq_nil_iff]
          intro a ha
          simp only [beq_iff_eq]
          intro hc
          exact hnin ((hmem e.date).mpr ⟨a, ha, hc⟩)
        have hfe : [e].filter (fun e' => e'.date == e.date) = [e] := by simp
        rw [List.filter_append, hpre, hfe]
        rfl

theorem groupTrend_inv (l : List DailyEntry) : TrendInv (groupTrendByDate l) l := by
  have main : ∀ (l : List DailyEntry) (m : List (String × TrendAcc)) (pre : List DailyEntry),
      TrendInv m pre → TrendInv (l.foldl trendStep m) (pre ++ l) := by
    intro l
    induction l with
    | nil =>
      intro m pre h
      simpa using h
    | cons e l ih =>
      intro m pre h
      have h1 := trendStep_inv m pre e h
      have h2 := ih (trendStep m e) (pre ++ [e]) h1
      simpa using h2
  have h0 : TrendInv [] [] := by
    refine ⟨by simp, by simp, by simp⟩
  simpa using main l [] [] h0

theorem foldl_addTrendEntry_weights (l : List DailyEntry) : ∀ a : TrendAcc,
    (l.foldl addTrendEntry a).weightSum = a.weightSum +
      ((l.filter (fun e => decide (0 < e.forecastQuantity.getD 0) &&
          decide (0 < e.forecastHours.getD 0))).map (fun e => e.forecastHours.getD 0)).sum ∧
    (l.foldl addTrendEntry a).weightedPFSum = a.weightedPFSum +
      ((l.filter (fun e => decide (0 < e.forecastQuantity.getD 0) &&
          decide (0 < e.forecastHours.getD 0))).map (fun e =>
            (e.actualQuantity.getD 0 / e.forecastQuantity.getD 0) *
              e.forecastHours.getD 0)).sum := by
  induction l with
  | nil => intro a; simp
  | cons e l ih =>
    intro a
    rw [List.foldl_cons]
    obtain ⟨ih1, ih2⟩ := ih (addTrendEntry a e)
    by_cases hc : 0 < e.forecastQuantity.getD 0 ∧ 0 < e.forecastHours.getD 0
    · have hfc : (decide (0 < e.forecastQuantity.getD 0) &&
          decide (0 < e.forecastHours.getD 0)) = true := by
        simp [hc.1, hc.2]
      have ha : (addTrendEntry a e).weightSum = a.weightSum + e.forecastHours.getD 0 := by
        simp [addTrendEntry, hc]
      have hb : (addTrendEntry a e).weightedPFSum = a.weightedPFSum +
          (e.actualQuantity.getD 0 / e.forecastQuantity.getD 0) * e.forecastHours.getD 0 := by
        simp [addTrendEntry, hc]
      constructor
      · rw [ih1, ha]
        simp only [List.filter_cons, hfc, if_true, List.map_cons, List.sum_cons]
        ring
      · rw [ih2, hb]
        simp only [List.filter_cons, hfc, if_true, List.map_cons, List.sum_cons]
        ring
    · have hfc : (decide (0 < e.forecastQuantity.getD 0) &&
          decide (0 < e.forecastHours.getD 0)) = false := by
        rcases Decidable.not_and_iff_or_not.mp hc with h | h <;> simp [h]
      have ha : (addTrendEntry a e).weightSum = a.weightSum := by
        simp [addTrendEntry, hc]
      have hb : (addTrendEntry a e).weightedPFSum = a.weightedPFSum := by
        simp [addTrendEntry, hc]
      constructor
      · rw [ih1, ha]
        simp only [List.filter_cons, hfc, Bool.false_eq_true, if_false]
      · rw [ih2, hb]
        simp only [List.filter_cons, hfc, Bool.false_eq_true, if_false]

theorem dateLe_refl (s : String) : dateLe s s = true := by
  simp [dateLe]

theorem mergeSort_single {α : Type} (a : α) (le : α → α → Bool) :
    List.mergeSort [a] le = [a] := by
  simp [List.mergeSort]

def c6Entry1 : DailyEntry :=
  { dummyEntry with
    id := 0
    activityId := "act1"
    scopeId := "scope1"
    projectId := "proj1"
    date := "2024-06-01"
    userId := "user1"
    forecastQuantity := some 100
    actualQuantity := some 110
    forecastHours := some 50 }

def c6Entry2 : DailyEntry :=
  { dummyEntry with
    id := 1
    activityId := "act2"
    scopeId := "scope1"
    projectId := "proj1"
    date := "2024-06-01"
    userId := "user1"
    forecastQuantity := some 200
    actualQuantity := some 180
    forecastHours := some 100 }

def c6Db : Db :=
  { c2Db with dailyEntries := [c6Entry1, c6Entry2], nextId := 2 }

theorem c6_example_eval :
    (getTrendData c6Db (some "user1") "proj1" "2024-06-01" "2024-06-01").map
      (fun p => (p.date, p.productionFactor)) = [("2024-06-01", 145/150)] := by
  norm_num [getTrendData, checkProjectAccess, c6Db, c2Db, c6Entry1, c6Entry2, dummyEntry,
    groupTrendByDate, trendStep, updateAssoc, addTrendEntry, emptyTrendAcc, trendPointOf,
    dateLe_refl, mergeSort_single, List.filter, List.find?, List.foldl]

/-- C6: for an authorized caller, getTrendData returns one element per
distinct date among the entries in range, each date's productionFactor is
the forecast-hours-weighted average Σ(entryPF · forecastHours)/Σ(forecastHours)
over exactly the entries with forecastQuantity > 0 and forecastHours > 0
(0 when the weight sum is 0), the output is sorted ascending by date string,
and on the spec's two-entry single-date example the productionFactor is
(1.1·50 + 0.9·100)/(50+100) = 145/150. -/
theorem getTrendData_spec (db : Db) (u : UserId) (pid : ProjectId) (sd ed : String)
    (hacc : checkProjectAccess db u pid = true) :
    ((getTrendData db (some u) pid sd ed).map (fun p => p.date)).Nodup ∧
    (∀ d, d ∈ (getTrendData db (some u) pid sd ed).map (fun p => p.date) ↔
      ∃ e ∈ (db.dailyEntries.filter (fun e => e.projectId == pid)).filter
        (fun e => dateLe sd e.date && dateLe e.date ed), e.date = d) ∧
    (∀ p ∈ getTrendData db (some u) pid sd ed,
      p.productionFactor = weightedPF
        ((db.dailyEntries.filter (fun e => e.projectId == pid)).filter
          (fun e => dateLe sd e.date && dateLe e.date ed)) p.date) ∧
    (getTrendData db (some u) pid sd ed).Pairwise (fun a b => dateLe a.date b.date = true) ∧
    (getTrendData c6Db (some "user1") "proj1" "2024-06-01" "2024-06-01").map
      (fun p => (p.date, p.productionFactor)) = [("2024-06-01", 145/150)] := by
  have hout : getTrendData db (some u) pid sd ed =
      ((groupTrendByDate ((db.dailyEntries.filter (fun e => e.projectId == pid)).filter
        (fun e => dateLe sd e.date && dateLe e.date ed))).map trendPointOf).mergeSort
        (fun a b => dateLe a.date b.date) := by
    simp only [getTrendData, hacc, Bool.true_eq_false, if_false]
  obtain ⟨hnd, hmem, hval⟩ := groupTrend_inv
    ((db.dailyEntries.filter (fun e => e.projectId == pid)).filter
      (fun e => dateLe sd e.date && dateLe e.date ed))
  have hperm := List.mergeSort_perm
    ((groupTrendByDate ((db.dailyEntries.filter (fun e => e.projectId == pid)).filter
      (fun e => dateLe sd e.date && dateLe e.date ed))).map trendPointOf)
    (fun a b => dateLe a.date b.date)
  have hmapdates : ((groupTrendByDate ((db.dailyEntries.filter
      (fun e => e.projectId == pid)).filter
      (fun e => dateLe sd e.date && dateLe e.date ed))).map trendPointOf).map
        (fun p => p.date) =
      (groupTrendByDate ((db.dailyEntries.filter (fun e => e.projectId == pid)).filter
        (fun e => dateLe sd e.date && dateLe e.date ed))).map Prod.fst := by
    rw [List.map_map]
    exact List.map_congr_left (fun p hp => rfl)
  refine ⟨?_, ?_, ?_, ?_, c6_example_eval⟩
  · rw [hout]
    rw [List.Perm.nodup_iff (List.Perm.map (fun p => p.date) hperm)]
    rw [hmapdates]
    exact hnd
  · intro d
    rw [hout]
    rw [List.Perm.mem_iff (List.Perm.map (fun p => p.date) hperm)]
    rw [hmapdates]
    exact hmem d
  · intro p hp
    rw [hout] at hp
    rw [List.Perm.mem_iff hperm] at hp
    obtain ⟨q, hq, rfl⟩ := List.mem_map.mp hp
    obtain ⟨hws, hwp⟩ := foldl_addTrendEntry_weights
      ((((db.dailyEntries.filter (fun e => e.projectId == pid)).filter
        (fun e => dateLe sd e.date && dateLe e.date ed)).filter
          (fun e => e.date == q.1))) emptyTrendAcc
    have hgen : ∀ L : List DailyEntry,
        L.filter (fun e => e.date == q.1 && decide (0 < e.forecastQuantity.getD 0) &&
          decide (0 < e.forecastHours.getD 0)) =
        (L.filter (fun e => e.date == q.1)).filter
          (fun e => decide (0 < e.forecastQuantity.getD 0) &&
            decide (0 < e.forecastHours.getD 0)) := by
      intro L
      rw [List.filter_filter]
      refine List.filter_congr (fun e he => ?_)
      cases hA : (e.date == q.1) <;> cases hB : decide (0 < e.forecastQuantity.getD 0) <;>
        cases hC : decide (0 < e.forecastHours.getD 0) <;> rfl
    have hq2 : trendQualifying ((db.dailyEntries.filter (fun e => e.projectId == pid)).filter
        (fun e => dateLe sd e.date && dateLe e.date ed)) q.1 =
        (((db.dailyEntries.filter (fun e => e.projectId == pid)).filter
          (fun e => dateLe sd e.date && dateLe e.date ed)).filter
            (fun e => e.date == q.1)).filter
          (fun e => decide (0 < e.forecastQuantity.getD 0) &&
            decide (0 < e.forecastHours.getD 0)) := by
      unfold trendQualifying
      exact hgen _
    show (if q.2.weightSum > 0 then q.2.weightedPFSum / q.2.weightSum else 0) =
      weightedPF _ q.1
    rw [hval q hq]
    rw [hws, hwp]
    simp only [weightedPF, hq2, emptyTrendAcc, zero_add]
  · rw [hout]
    exact @List.sorted_mergeSort TrendPoint (fun a b => dateLe a.date b.date)
      (fun a b c hab hbc => dateLe_trans _ _ _ hab hbc)
      (fun a b => dateLe_total a.date b.date) _

/-- Witness for C6: the trend output over the concrete example store has
unduplicated dates including the example date. -/
theorem getTrendData_spec_witness :
    ((getTrendData c6Db (some "user1") "proj1" "2024-06-01" "2024-06-01").map
      (fun p => p.date)).Nodup ∧
    "2024-06-01" ∈ (getTrendData c6Db (some "user1") "proj1" "2024-06-01" "2024-06-01").map
      (fun p => p.date) :=
  ⟨(getTrendData_spec c6Db "user1" "proj1" "2024-06-01" "2024-06-01" (by decide)).1,
   ((getTrendData_spec c6Db "user1" "proj1" "2024-06-01" "2024-06-01" (by decide)).2.1
      "2024-06-01").mpr ⟨c6Entry1, by decide, rfl⟩⟩

/-- mathRound models JavaScript Math.round on the values seen here:
⌊x + 1/2⌋. -/
def mathRound (x : ℚ) : ℤ := ((x + 1/2) : ℚ).floor

/-- round2: `Math.round(x * 100) / 100`. -/
def round2 (x : ℚ) : ℚ := ((mathRound (x * 100) : ℤ) : ℚ) / 100

/-- round1: `Math.round(x * 10) / 10`. -/
def round1 (x : ℚ) : ℚ := ((mathRound (x * 10) : ℤ) : ℚ) / 10

/-- strTruthy: JavaScript truthiness of an optional string (`undefined` and
`""` are falsy), used by the `if (args.startDate && args.endDate)` guards. -/
def strTruthy : Option String → Bool
  | none => false
  | some s => !s.isEmpty

/-- setAdd: JavaScript `Set.add` on the insertion-ordered list model. -/
def setAdd (l : List String) (x : String) : List String :=
  if x ∈ l then l else l ++ [x]

structure LBAcc where
  totalActualQuantity : ℚ
  totalActualHours : ℚ
  totalForecastQuantity : ℚ
  totalForecastHours : ℚ
  entriesCount : Nat
  activitiesWorked : List ActivityId
  scopesWorked : List ScopeId
deriving DecidableEq

def emptyLBAcc : LBAcc := ⟨0, 0, 0, 0, 0, [], []⟩

def addLBEntry (a : LBAcc) (e : DailyEntry) : LBAcc :=
  { totalActualQuantity := a.totalActualQuantity + e.actualQuantity.getD 0
    totalActualHours := a.totalActualHours + e.actualHours.getD 0
    totalForecastQuantity := a.totalForecastQuantity + e.forecastQuantity.getD 0
    totalForecastHours := a.totalForecastHours + e.forecastHours.getD 0
    entriesCount := a.entriesCount + 1
    activitiesWorked := setAdd a.activitiesWorked e.activityId
    scopesWorked := setAdd a.scopesWorked e.scopeId }

/-- foremanKey: `entry.foremanName ?? entry.userId`, the leaderboard grouping
key. -/
def foremanKey (e : DailyEntry) : String := e.foremanName.getD e.userId

def lbStep (m : List (String × LBAcc)) (e : DailyEntry) : List (String × LBAcc) :=
  let m1 := if (m.find? (fun p => p.1 == foremanKey e)).isSome then m
    else m ++ [(foremanKey e, emptyLBAcc)]
  m1.map (fun p => if p.1 == foremanKey e then (p.1, addLBEntry p.2 e) else p)

def groupByForeman (entries : List DailyEntry) : List (String × LBAcc) :=
  entries.foldl lbStep []

/-- resolveForemanDisplay: a key containing ":" (`foremanKey.includes(":")`,
modelled as membership of the colon character in the string's characters) is
a raw user id and is resolved to the profile name (fallback "Unknown");
otherwise it is already a foreman name. -/
def resolveForemanDisplay (db : Db) (key : String) : String :=
  if key.data.contains ':' then
    match db.userProfiles.find? (fun p => p.userId == key) with
    | some profile => profile.name
    | none => "Unknown"
  else key

def scopeNamesFor (db : Db) (ids : List ScopeId) : List String :=
  ids.filterMap (fun sid => (db.scopes.find? (fun s => s.id == sid)).map (fun s => s.name))

structure LBRow where
  foremanName : String
  scopeNames : List String
  totalActualQuantity : ℚ
  totalActualHours : ℚ
  totalForecastQuantity : ℚ
  totalForecastHours : ℚ
  productionRate : ℚ
  productionFactor : ℚ
  variancePercent : ℚ
  entriesCount : Nat
  activitiesCount : Nat
deriving DecidableEq

structure RankedLBRow extends LBRow where
  rank : Nat
deriving DecidableEq

def mkLBRow (db : Db) (p : String × LBAcc) : LBRow :=
  { foremanName := resolveForemanDisplay db p.1
    scopeNames := scopeNamesFor db p.2.scopesWorked
    totalActualQuantity := p.2.totalActualQuantity
    totalActualHours := p.2.totalActualHours
    totalForecastQuantity := p.2.totalForecastQuantity
    totalForecastHours := p.2.totalForecastHours
    productionRate := round2 (if p.2.totalActualHours > 0 then
      p.2.totalActualQuantity / p.2.totalActualHours else 0)
    productionFactor := round2 (if p.2.totalForecastQuantity > 0 then
      p.2.totalActualQuantity / p.2.totalForecastQuantity else 0)
    variancePercent := round1 (if p.2.totalForecastQuantity > 0 then
      (p.2.totalActualQuantity - p.2.totalForecastQuantity) / p.2.totalForecastQuantity * 100
      else 0)
    entriesCount := p.2.entriesCount
    activitiesCount := p.2.activitiesWorked.length }

/-- rankFrom: `map((entry, index) => ({...entry, rank: index + 1}))`, with the
starting rank as an explicit counter. -/
def rankFrom {α β : Type} (mk : α → Nat → β) : Nat → List α → List β
  | _, [] => []
  | n, a :: as => mk a n :: rankFrom mk (n + 1) as

/-- getProjectLeaderboard from `leaderboard.ts`: filter to the project (and
date range when both bounds are truthy), group by foremanName ?? userId,
build rounded rows, sort by productionFactor descending (stable) and assign
1-based ranks. -/
def getProjectLeaderboard (db : Db) (auth : Option UserId) (projectId : ProjectId)
    (startDate endDate : Option String) : List RankedLBRow :=
  match auth with
  | none => []
  | some userId =>
    if checkProjectAccess db userId projectId = false then []
    else
      let entries0 := db.dailyEntries.filter (fun e => e.projectId == projectId)
      let entries := if strTruthy startDate && strTruthy endDate then
          entries0.filter (fun e =>
            dateLe (startDate.getD "") e.date && dateLe e.date (endDate.getD ""))
        else entries0
      let rows := (groupByForeman entries).map (mkLBRow db)
      let sorted := rows.mergeSort (fun a b => decide (b.productionFactor ≤ a.productionFactor))
      rankFrom (fun row n => RankedLBRow.mk row n) 1 sorted

structure SLBAcc where
  totalActualQuantity : ℚ
  totalActualHours : ℚ
  totalForecastQuantity : ℚ
  totalForecastHours : ℚ
  entriesCount : Nat
deriving DecidableEq

def emptySLBAcc : SLBAcc := ⟨0, 0, 0, 0, 0⟩

def addSLBEntry (a : SLBAcc) (e : DailyEntry) : SLBAcc :=
  { totalActualQuantity := a.totalActualQuantity + e.actualQuantity.getD 0
    totalActualHours := a.totalActualHours + e.actualHours.getD 0
    totalForecastQuantity := a.totalForecastQuantity + e.forecastQuantity.getD 0
    totalForecastHours := a.totalForecastHours + e.forecastHours.getD 0
    entriesCount := a.entriesCount + 1 }

def slbStep (m : List (String × SLBAcc)) (e : DailyEntry) : List (String × SLBAcc) :=
  let m1 := if (m.find? (fun p => p.1 == foremanKey e)).isSome then m
    else m ++ [(foremanKey e, emptySLBAcc)]
  m1.map (fun p => if p.1 == foremanKey e then (p.1, addSLBEntry p.2 e) else p)

def groupByForemanScope (entries : List DailyEntry) : List (String × SLBAcc) :=
  entries.foldl slbStep []

structure SLBRow where
  foremanName : String
  totalActualQuantity : ℚ
  totalActualHours : ℚ
  totalForecastQuantity : ℚ
  totalForecastHours : ℚ
  productionRate : ℚ
  productionFactor : ℚ
  variancePercent : ℚ
  entriesCount : Nat
deriving DecidableEq

structure RankedSLBRow extends SLBRow where
  rank : Nat
deriving DecidableEq

def mkSLBRow (db : Db) (p : String × SLBAcc) : SLBRow :=
  { foremanName := resolveForemanDisplay db p.1
    totalActualQuantity := p.2.totalActualQuantity
    totalActualHours := p.2.totalActualHours
    totalForecastQuantity := p.2.totalForecastQuantity
    totalForecastHours := p.2.totalForecastHours
    productionRate := round2 (if p.2.totalActualHours > 0 then
      p.2.totalActualQuantity / p.2.totalActualHours else 0)
    productionFactor := round2 (if p.2.totalForecastQuantity > 0 then
      p.2.totalActualQuantity / p.2.totalForecastQuantity else 0)
    variancePercent := round1 (if p.2.totalForecastQuantity > 0 then
      (p.2.totalActualQuantity - p.2.totalForecastQuantity) / p.2.totalForecastQuantity * 100
      else 0)
    entriesCount := p.2.entriesCount }

/-- getScopeLeaderboard from `leaderboard.ts`: like the project leaderboard
but over one scope's entries (after resolving the scope), without the
scope-name/activity-count enrichment. -/
def getScopeLeaderboard (db : Db) (auth : Option UserId) (scopeId : ScopeId)
    (startDate endDate : Option String) : List RankedSLBRow :=
  match auth with
  | none => []
  | some userId =>
    match db.scopes.find? (fun s => s.id == scopeId) with
    | none => []
    | some scope =>
      if checkProjectAccess db userId scope.projectId = false then []
      else
        let entries0 := db.dailyEntries.filter (fun e => e.scopeId == scopeId)
        let entries := if strTruthy startDate && strTruthy endDate then
            entries0.filter (fun e =>
              dateLe (startDate.getD "") e.date && dateLe e.date (endDate.getD ""))
          else entries0
        let rows := (groupByForemanScope entries).map (mkSLBRow db)
        let sorted := rows.mergeSort
          (fun a b => decide (b.productionFactor ≤ a.productionFactor))
        rankFrom (fun row n => RankedSLBRow.mk row n) 1 sorted

theorem rankFrom_mem {α β : Type} (mk : α → Nat → β) :
    ∀ (n : Nat) (l : List α) (b : β), b ∈ rankFrom mk n l →
      ∃ a ∈ l, ∃ m, n ≤ m ∧ b = mk a m := by
  intro n l
  induction l generalizing n with
  | nil =>
    intro b hb
    simp [rankFrom] at hb
  | cons a as ih =>
    intro b hb
    simp only [rankFrom, List.mem_cons] at hb
    rcases hb with rfl | hb
    · exact ⟨a, by simp, n, le_refl n, rfl⟩
    · obtain ⟨a', ha', m, hm, rfl⟩ := ih (n + 1) b hb
      exact ⟨a', by simp [ha'], m, by omega, rfl⟩

theorem rankFrom_length {α β : Type} (mk : α → Nat → β) :
    ∀ (n : Nat) (l : List α), (rankFrom mk n l).length = l.length := by
  intro n l
  induction l generalizing n with
  | nil => rfl
  | cons a as ih => simp [rankFrom, ih (n + 1)]

theorem rankFrom_map_rank {α β : Type} (mk : α → Nat → β) (r : β → Nat)
    (hr : ∀ a n, r (mk a n) = n) :
    ∀ (n : Nat) (l : List α), (rankFrom mk n l).map r = List.range' n l.length := by
  intro n l
  induction l generalizing n with
  | nil => simp [rankFrom]
  | cons a as ih =>
    simp only [rankFrom, List.map_cons, hr, List.length_cons, List.range'_succ]
    rw [ih (n + 1)]

theorem rankFrom_pairwise {α β : Type} (mk : α → Nat → β) (q : α → α → Prop)
    (q' : β → β → Prop) (hmk : ∀ a m a' m', q a a' → q' (mk a m) (mk a' m')) :
    ∀ (n : Nat) (l : List α), l.Pairwise q → (rankFrom mk n l).Pairwise q' := by
  intro n l
  induction l generalizing n with
  | nil =>
    intro _
    simp [rankFrom]
  | cons a as ih =>
    intro hp
    rw [List.pairwise_cons] at hp
    simp only [rankFrom, List.pairwise_cons]
    refine ⟨?_, ih (n + 1) hp.2⟩
    intro b hb
    obtain ⟨a', ha', m, _, rfl⟩ := rankFrom_mem mk (n + 1) as b hb
    exact hmk a n a' m (hp.1 a' ha')

theorem rankFrom_rank_lt {α β : Type} (mk : α → Nat → β) (g : α → ℚ) (g' : β → ℚ)
    (r : β → Nat) (hg : ∀ a n, g' (mk a n) = g a) (hr : ∀ a n, r (mk a n) = n) :
    ∀ (n : Nat) (l : List α), l.Pairwise (fun a b => g b ≤ g a) →
      ∀ x ∈ rankFrom mk n l, ∀ y ∈ rankFrom mk n l, g' y < g' x → r x < r y := by
  intro n l
  induction l generalizing n with
  | nil =>
    intro _ x hx
    simp [rankFrom] at hx
  | cons a as ih =>
    intro hp x hx y hy hlt
    rw [List.pairwise_cons] at hp
    simp only [rankFrom, List.mem_cons] at hx hy
    rcases hx with rfl | hx <;> rcases hy with rfl | hy
    · exact absurd hlt (lt_irrefl _)
    · obtain ⟨a', ha', m, hm, rfl⟩ := rankFrom_mem mk (n + 1) as y hy
      rw [hr, hr]
      omega
    · obtain ⟨a', ha', m, hm, rfl⟩ := rankFrom_mem mk (n + 1) as x hx
      rw [hg, hg] at hlt
      exact absurd hlt (not_lt.mpr (hp.1 a' ha'))
    · exact ih (n + 1) hp.2 x hx y hy hlt

theorem ranked_output_props {α β : Type} (mk : α → Nat → β) (g : α → ℚ) (g' : β → ℚ)
    (r : β → Nat) (hg : ∀ a n, g' (mk a n) = g a) (hr : ∀ a n, r (mk a n) = n)
    (rows : List α) :
    ((rankFrom mk 1 (rows.mergeSort (fun a b => decide (g b ≤ g a)))).map r =
      List.range' 1 (rankFrom mk 1 (rows.mergeSort (fun a b => decide (g b ≤ g a)))).length) ∧
    (rankFrom mk 1 (rows.mergeSort (fun a b => decide (g b ≤ g a)))).Pairwise
      (fun x y => g' y ≤ g' x) ∧
    (∀ x ∈ rankFrom mk 1 (rows.mergeSort (fun a b => decide (g b ≤ g a))),
      ∀ y ∈ rankFrom mk 1 (rows.mergeSort (fun a b => decide (g b ≤ g a))),
      g' y < g' x → r x < r y) := by
  have hsorted : (rows.mergeSort (fun a b => decide (g b ≤ g a))).Pairwise
      (fun a b => g b ≤ g a) := by
    have := @List.sorted_mergeSort α (fun a b => decide (g b ≤ g a))
      (fun a b c hab hbc => by
        simp only [decide_eq_true_eq] at *
        exact le_trans hbc hab)
      (fun a b => by
        rcases le_total (g b) (g a) with h | h
        · simp [h]
        · simp [h])
      rows
    refine List.Pairwise.imp ?_ this
    intro a b h
    simpa using h
  refine ⟨?_, ?_, ?_⟩
  · rw [rankFrom_length, rankFrom_map_rank mk r hr]
  · exact rankFrom_pairwise mk (fun a b => g b ≤ g a) (fun x y => g' y ≤ g' x)
      (fun a m a' m' h => by
        show g' (mk a' m') ≤ g' (mk a m)
        rw [hg, hg]
        exact h) 1 _ hsorted
  · exact rankFrom_rank_lt mk g g' r hg hr 1 _ hsorted

/-- C7: both leaderboards are sorted by productionFactor descending, ranks
are exactly 1..N in order (dense, no gaps, equal factors get consecutive
distinct ranks), and any group with a strictly larger productionFactor has a
strictly smaller rank. -/
theorem leaderboard_ranking (db : Db) (auth : Option UserId) (pid : ProjectId) (sid : ScopeId)
    (sd ed : Option String) :
    ((getProjectLeaderboard db auth pid sd ed).map (fun row => row.rank) =
      List.range' 1 (getProjectLeaderboard db auth pid sd ed).length) ∧
    (getProjectLeaderboard db auth pid sd ed).Pairwise
      (fun x y => y.productionFactor ≤ x.productionFactor) ∧
    (∀ x ∈ getProjectLeaderboard db auth pid sd ed,
      ∀ y ∈ getProjectLeaderboard db auth pid sd ed,
      y.productionFactor < x.productionFactor → x.rank < y.rank) ∧
    ((getScopeLeaderboard db auth sid sd ed).map (fun row => row.rank) =
      List.range' 1 (getScopeLeaderboard db auth sid sd ed).length) ∧
    (getScopeLeaderboard db auth sid sd ed).Pairwise
      (fun x y => y.productionFactor ≤ x.productionFactor) ∧
    (∀ x ∈ getScopeLeaderboard db auth sid sd ed,
      ∀ y ∈ getScopeLeaderboard db auth sid sd ed,
      y.productionFactor < x.productionFactor → x.rank < y.rank) := by
  have hP : ∀ out : List RankedLBRow,
      (out = [] ∨ ∃ rows : List LBRow, out = rankFrom (fun row n => RankedLBRow.mk row n) 1
        (rows.mergeSort (fun a b => decide (b.productionFactor ≤ a.productionFactor)))) →
      (out.map (fun row => row.rank) = List.range' 1 out.length) ∧
      out.Pairwise (fun x y => y.productionFactor ≤ x.productionFactor) ∧
      (∀ x ∈ out, ∀ y ∈ out, y.productionFactor < x.productionFactor → x.rank < y.rank) := by
    rintro out (rfl | ⟨rows, rfl⟩)
    · exact ⟨by simp, by simp, by simp⟩
    · exact ranked_output_props (fun row n => RankedLBRow.mk row n)
        (fun row => row.productionFactor) (fun row => row.productionFactor)
        (fun row => row.rank) (fun a n => rfl) (fun a n => rfl) rows
  have hS : ∀ out : List RankedSLBRow,
      (out = [] ∨ ∃ rows : List SLBRow, out = rankFrom (fun row n => RankedSLBRow.mk row n) 1
        (rows.mergeSort (fun a b => decide (b.productionFactor ≤ a.productionFactor)))) →
      (out.map (fun row => row.rank) = List.range' 1 out.length) ∧
      out.Pairwise (fun x y => y.productionFactor ≤ x.productionFactor) ∧
      (∀ x ∈ out, ∀ y ∈ out, y.productionFactor < x.productionFactor → x.rank < y.rank) := by
    rintro out (rfl | ⟨rows, rfl⟩)
    · exact ⟨by simp, by simp, by simp⟩
    · exact ranked_output_props (fun row n => RankedSLBRow.mk row n)
        (fun row => row.productionFactor) (fun row => row.productionFactor)
        (fun row => row.rank) (fun a n => rfl) (fun a n => rfl) rows
  have houtP : getProjectLeaderboard db auth pid sd ed = [] ∨
      ∃ rows : List LBRow, getProjectLeaderboard db auth pid sd ed =
        rankFrom (fun row n => RankedLBRow.mk row n) 1
          (rows.mergeSort (fun a b => decide (b.productionFactor ≤ a.productionFactor))) := by
    rcases auth with _ | u
    · exact Or.inl rfl
    · by_cases hacc : checkProjectAccess db u pid = false
      · exact Or.inl (by simp [getProjectLeaderboard, hacc])
      · refine Or.inr ⟨(groupByForeman (if strTruthy sd && strTruthy ed then
          (db.dailyEntries.filter (fun e => e.projectId == pid)).filter (fun e =>
            dateLe (sd.getD "") e.date && dateLe e.date (ed.getD ""))
          else db.dailyEntries.filter (fun e => e.projectId == pid))).map (mkLBRow db), ?_⟩
        simp only [getProjectLeaderboard, if_neg hacc]
  have houtS : getScopeLeaderboard db auth sid sd ed = [] ∨
      ∃ rows : List SLBRow, getScopeLeaderboard db auth sid sd ed =
        rankFrom (fun row n => RankedSLBRow.mk row n) 1
          (rows.mergeSort (fun a b => decide (b.productionFactor ≤ a.productionFactor))) := by
    rcases auth with _ | u
    · exact Or.inl rfl
    · rcases hsc : db.scopes.find? (fun s => s.id == sid) with _ | scope
      · exact Or.inl (by simp [getScopeLeaderboard, hsc])
      · by_cases hacc : checkProjectAccess db u scope.projectId = false
        · exact Or.inl (by simp [getScopeLeaderboard, hsc, hacc])
        · refine Or.inr ⟨(groupByForemanScope (if strTruthy sd && strTruthy ed then
            (db.dailyEntries.filter (fun e => e.scopeId == sid)).filter (fun e =>
              dateLe (sd.getD "") e.date && dateLe e.date (ed.getD ""))
            else db.dailyEntries.filter (fun e => e.scopeId == sid))).map (mkSLBRow db), ?_⟩
          simp only [getScopeLeaderboard, hsc, if_neg hacc]
  obtain ⟨p1, p2, p3⟩ := hP _ houtP
  obtain ⟨s1, s2, s3⟩ := hS _ houtS
  exact ⟨p1, p2, p3, s1, s2, s3⟩

def c7EntryA : DailyEntry :=
  { dummyEntry with
    id := 0
    activityId := "act1"
    scopeId := "scope1"
    projectId := "proj1"
    date := "2024-06-01"
    userId := "user1"
    foremanName := some "Alice"
    forecastQuantity := some 100
    actualQuantity := some 200 }

def c7EntryB : DailyEntry :=
  { dummyEntry with
    id := 1
    activityId := "act2"
    scopeId := "scope1"
    projectId := "proj1"
    date := "2024-06-01"
    userId := "user1"
    foremanName := some "Bob"
    forecastQuantity := some 100
    actualQuantity := some 50 }

def c7Db : Db :=
  { c2Db with dailyEntries := [c7EntryA, c7EntryB], nextId := 2 }

def c7RowA : RankedLBRow :=
  { foremanName := "Alice"
    scopeNames := ["Civil"]
    totalActualQuantity := 200
    totalActualHours := 0
    totalForecastQuantity := 100
    totalForecastHours := 0
    productionRate := 0
    productionFactor := 2
    variancePercent := 100
    entriesCount := 1
    activitiesCount := 1
    rank := 1 }

def c7RowB : RankedLBRow :=
  { foremanName := "Bob"
    scopeNames := ["Civil"]
    totalActualQuantity := 50
    totalActualHours := 0
    totalForecastQuantity := 100
    totalForecastHours := 0
    productionRate := 0
    productionFactor := 1/2
    variancePercent := -50
    entriesCount := 1
    activitiesCount := 1
    rank := 2 }

theorem c7_out_eval :
    getProjectLeaderboard c7Db (some "user1") "proj1" none none = [c7RowA, c7RowB] := by
  have hA : ("Alice".data.contains ':') = false := by decide
  have hB : ("Bob".data.contains ':') = false := by decide
  norm_num +decide [getProjectLeaderboard, checkProjectAccess, c7Db, c2Db, c7EntryA, c7EntryB,
    dummyEntry, groupByForeman, lbStep, addLBEntry, emptyLBAcc, setAdd, foremanKey, mkLBRow,
    resolveForemanDisplay, scopeNamesFor, rankFrom, round2, round1, mathRound, Rat.floor,
    strTruthy, List.mergeSort, List.filter, List.find?, List.foldl, hA, hB, c7RowA, c7RowB]

/-- Witness for C7: on the concrete two-foreman store the ranks are [1, 2]
and Alice (PF 2) outranks Bob (PF 0.5). -/
theorem leaderboard_ranking_witness :
    ((getProjectLeaderboard c7Db (some "user1") "proj1" none none).map (fun row => row.rank) =
      List.range' 1 (getProjectLeaderboard c7Db (some "user1") "proj1" none none).length) ∧
    c7RowA.rank < c7RowB.rank :=
  ⟨(leaderboard_ranking c7Db (some "user1") "proj1" "scope1" none none).1,
   (leaderboard_ranking c7Db (some "user1") "proj1" "scope1" none none).2.2.1 c7RowA
     (by rw [c7_out_eval]; simp) c7RowB (by rw [c7_out_eval]; simp)
     (by norm_num [c7RowA, c7RowB])⟩

/-- Counterexample for C8: getTrendData returns its per-date productionFactor
unrounded — on the spec's own example the value is 145/150 = 29/30, whereas
rounding to 2 decimal places would give 97/100. -/
theorem trend_pf_not_rounded :
    (getTrendData c6Db (some "user1") "proj1" "2024-06-01" "2024-06-01").map
      (fun p => p.productionFactor) = [145/150] ∧
    round2 (145/150) = 97/100 ∧
    (145/150 : ℚ) ≠ 97/100 := by
  refine ⟨?_, ?_, by norm_num⟩
  · have h := c6_example_eval
    have h2 := congrArg (fun l => l.map (fun q : String × ℚ => q.2)) h
    simp only [List.map_map] at h2
    simpa using h2
  · norm_num [round2, mathRound, Rat.floor]

theorem mem_project_leaderboard_shape (db : Db) (auth : Option UserId) (pid : ProjectId)
    (sd ed : Option String) :
    ∀ row ∈ getProjectLeaderboard db auth pid sd ed,
      ∃ p : String × LBAcc, row.toLBRow = mkLBRow db p := by
  intro row hrow
  rcases auth with _ | u
  · simp [getProjectLeaderboard] at hrow
  · by_cases hacc : checkProjectAccess db u pid = false
    · simp [getProjectLeaderboard, hacc] at hrow
    · rw [show getProjectLeaderboard db (some u) pid sd ed =
          rankFrom (fun row n => RankedLBRow.mk row n) 1
            (((groupByForeman (if strTruthy sd && strTruthy ed then
              (db.dailyEntries.filter (fun e => e.projectId == pid)).filter (fun e =>
                dateLe (sd.getD "") e.date && dateLe e.date (ed.getD ""))
              else db.dailyEntries.filter (fun e => e.projectId == pid))).map
                (mkLBRow db)).mergeSort
              (fun a b => decide (b.productionFactor ≤ a.productionFactor)))
        from by simp only [getProjectLeaderboard, if_neg hacc]] at hrow
      obtain ⟨r, hr, m, _, rfl⟩ := rankFrom_mem _ _ _ row hrow
      rw [List.Perm.mem_iff (List.mergeSort_perm _ _)] at hr
      obtain ⟨p, hp, rfl⟩ := List.mem_map.mp hr
      exact ⟨p, rfl⟩

theorem mem_scope_leaderboard_shape (db : Db) (auth : Option UserId) (sid : ScopeId)
    (sd ed : Option String) :
    ∀ row ∈ getScopeLeaderboard db auth sid sd ed,
      ∃ p : String × SLBAcc, row.toSLBRow = mkSLBRow db p := by
  intro row hrow
  rcases auth with _ | u
  · simp [getScopeLeaderboard] at hrow
  · rcases hsc : db.scopes.find? (fun s => s.id == sid) with _ | scope
    · simp [getScopeLeaderboard, hsc] at hrow
    · by_cases hacc : checkProjectAccess db u scope.projectId = false
      · simp [getScopeLeaderboard, hsc, hacc] at hrow
      · rw [show getScopeLeaderboard db (some u) sid sd ed =
            rankFrom (fun row n => RankedSLBRow.mk row n) 1
              (((groupByForemanScope (if strTruthy sd && strTruthy ed then
                (db.dailyEntries.filter (fun e => e.scopeId == sid)).filter (fun e =>
                  dateLe (sd.getD "") e.date && dateLe e.date (ed.getD ""))
                else db.dailyEntries.filter (fun e => e.scopeId == sid))).map
                  (mkSLBRow db)).mergeSort
                (fun a b => decide (b.productionFactor ≤ a.productionFactor)))
          from by simp only [getScopeLeaderboard, hsc, if_neg hacc]] at hrow
        obtain ⟨r, hr, m, _, rfl⟩ := rankFrom_mem _ _ _ row hrow
        rw [List.Perm.mem_iff (List.mergeSort_perm _ _)] at hr
        obtain ⟨p, hp, rfl⟩ := List.mem_map.mp hr
        exact ⟨p, rfl⟩

theorem round2_zero : round2 0 = 0 := by
  norm_num [round2, mathRound, Rat.floor]

theorem round1_zero : round1 0 = 0 := by
  norm_num [round1, mathRound, Rat.floor]

/-- C8 (amended): the leaderboard queries round productionFactor and
productionRate to 2 decimal places (`Math.round(x*100)/100`) and
variancePercent to 1 (`Math.round(x*10)/10`), with division by zero yielding
0 in every row; the KPI queries return productionRate unrounded with the
same zero guard; getTrendData returns its per-date productionFactor
unrounded (see the counterexample). -/
theorem leaderboard_rounding (db : Db) (auth : Option UserId) (pid : ProjectId) (sid : ScopeId)
    (sd ed : Option String) :
    (∀ row ∈ getProjectLeaderboard db auth pid sd ed,
      row.productionFactor = round2 (if row.totalForecastQuantity > 0 then
        row.totalActualQuantity / row.totalForecastQuantity else 0) ∧
      row.productionRate = round2 (if row.totalActualHours > 0 then
        row.totalActualQuantity / row.totalActualHours else 0) ∧
      row.variancePercent = round1 (if row.totalForecastQuantity > 0 then
        (row.totalActualQuantity - row.totalForecastQuantity) /
          row.totalForecastQuantity * 100 else 0) ∧
      (¬ row.totalForecastQuantity > 0 →
        row.productionFactor = 0 ∧ row.variancePercent = 0) ∧
      (¬ row.totalActualHours > 0 → row.productionRate = 0)) ∧
    (∀ row ∈ getScopeLeaderboard db auth sid sd ed,
      row.productionFactor = round2 (if row.totalForecastQuantity > 0 then
        row.totalActualQuantity / row.totalForecastQuantity else 0) ∧
      row.productionRate = round2 (if row.totalActualHours > 0 then
        row.totalActualQuantity / row.totalActualHours else 0) ∧
      row.variancePercent = round1 (if row.totalForecastQuantity > 0 then
        (row.totalActualQuantity - row.totalForecastQuantity) /
          row.totalForecastQuantity * 100 else 0) ∧
      (¬ row.totalForecastQuantity > 0 →
        row.productionFactor = 0 ∧ row.variancePercent = 0) ∧
      (¬ row.totalActualHours > 0 → row.productionRate = 0)) ∧
    (∀ k, getProjectKPIs db auth pid = some k →
      ¬ k.totalActualHours > 0 → k.productionRate = 0) ∧
    round2 0 = 0 ∧ round1 0 = 0 := by
  refine ⟨?_, ?_, ?_, round2_zero, round1_zero⟩
  · intro row hrow
    obtain ⟨p, hp⟩ := mem_project_leaderboard_shape db auth pid sd ed row hrow
    have h1 : row.productionFactor = round2 (if row.totalForecastQuantity > 0 then
        row.totalActualQuantity / row.totalForecastQuantity else 0) := by
      show row.toLBRow.productionFactor = round2 (if row.toLBRow.totalForecastQuantity > 0 then
        row.toLBRow.totalActualQuantity / row.toLBRow.totalForecastQuantity else 0)
      rw [hp]
      rfl
    have h2 : row.productionRate = round2 (if row.totalActualHours > 0 then
        row.totalActualQuantity / row.totalActualHours else 0) := by
      show row.toLBRow.productionRate = round2 (if row.toLBRow.totalActualHours > 0 then
        row.toLBRow.totalActualQuantity / row.toLBRow.totalActualHours else 0)
      rw [hp]
      rfl
    have h3 : row.variancePercent = round1 (if row.totalForecastQuantity > 0 then
        (row.totalActualQuantity - row.totalForecastQuantity) /
          row.totalForecastQuantity * 100 else 0) := by
      show row.toLBRow.variancePercent = round1 (if row.toLBRow.totalForecastQuantity > 0 then
        (row.toLBRow.totalActualQuantity - row.toLBRow.totalForecastQuantity) /
          row.toLBRow.totalForecastQuantity * 100 else 0)
      rw [hp]
      rfl
    refine ⟨h1, h2, h3, fun hneg => ?_, fun hneg => ?_⟩
    · rw [h1, h3, if_neg hneg, if_neg hneg]
      exact ⟨round2_zero, round1_zero⟩
    · rw [h2, if_neg hneg]
      exact round2_zero
  · intro row hrow
    obtain ⟨p, hp⟩ := mem_scope_leaderboard_shape db auth sid sd ed row hrow
    have h1 : row.productionFactor = round2 (if row.totalForecastQuantity > 0 then
        row.totalActualQuantity / row.totalForecastQuantity else 0) := by
      show row.toSLBRow.productionFactor = round2 (if row.toSLBRow.totalForecastQuantity > 0 then
        row.toSLBRow.totalActualQuantity / row.toSLBRow.totalForecastQuantity else 0)
      rw [hp]
      rfl
    have h2 : row.productionRate = round2 (if row.totalActualHours > 0 then
        row.totalActualQuantity / row.totalActualHours else 0) := by
      show row.toSLBRow.productionRate = round2 (if row.toSLBRow.totalActualHours > 0 then
        row.toSLBRow.totalActualQuantity / row.toSLBRow.totalActualHours else 0)
      rw [hp]
      rfl
    have h3 : row.variancePercent = round1 (if row.totalForecastQuantity > 0 then
        (row.totalActualQuantity - row.totalForecastQuantity) /
          row.totalForecastQuantity * 100 else 0) := by
      show row.toSLBRow.variancePercent = round1 (if row.toSLBRow.totalForecastQuantity > 0 then
        (row.toSLBRow.totalActualQuantity - row.toSLBRow.totalForecastQuantity) /
          row.toSLBRow.totalForecastQuantity * 100 else 0)
      rw [hp]
      rfl
    refine ⟨h1, h2, h3, fun hneg => ?_, fun hneg => ?_⟩
    · rw [h1, h3, if_neg hneg, if_neg hneg]
      exact ⟨round2_zero, round1_zero⟩
    · rw [h2, if_neg hneg]
      exact round2_zero
  · intro k hk hneg
    rcases auth with _ | u
    · exact absurd hk (by simp [getProjectKPIs])
    · simp only [getProjectKPIs] at hk
      by_cases hacc : checkProjectAccess db u pid = false
      · rw [if_pos hacc] at hk
        exact absurd hk (by simp)
      · rw [if_neg hacc] at hk
        simp only [Option.some.injEq] at hk
        subst hk
        simp only at hneg ⊢
        rw [if_neg hneg]

/-- Witness for the amended C8: the concrete leaderboard's Alice row carries
the rounded production factor of its own totals. -/
theorem leaderboard_rounding_witness :
    c7RowA.productionFactor = round2 (if c7RowA.totalForecastQuantity > 0 then
      c7RowA.totalActualQuantity / c7RowA.totalForecastQuantity else 0) ∧
    c7RowA.productionRate = round2 (if c7RowA.totalActualHours > 0 then
      c7RowA.totalActualQuantity / c7RowA.totalActualHours else 0) :=
  ⟨((leaderboard_rounding c7Db (some "user1") "proj1" "scope1" none none).1 c7RowA
      (by rw [c7_out_eval]; simp)).1,
   ((leaderboard_rounding c7Db (some "user1") "proj1" "scope1" none none).1 c7RowA
      (by rw [c7_out_eval]; simp)).2.1⟩

/-- C9: every embedded read query returns null/empty — never an error — when
the caller is unauthenticated or the access gate denies the target project,
scope or activity (or, for the all-projects query, the caller is not
control_center); in particular a construction_manager with no
ProjectAssignment row for the project gets null from getProjectKPIs. -/
theorem read_queries_deny_silently (db : Db) :
    (∀ pid, getProjectKPIs db none pid = none) ∧
    (∀ sid, getScopeKPIs db none sid = none) ∧
    (∀ aid, getActivityKPIs db none aid = none) ∧
    (getAllProjectsKPIs db none = none) ∧
    (∀ pid sd ed, getTrendData db none pid sd ed = []) ∧
    (∀ pid sd ed, getProjectLeaderboard db none pid sd ed = []) ∧
    (∀ sid sd ed, getScopeLeaderboard db none sid sd ed = []) ∧
    (∀ u pid, checkProjectAccess db u pid = false →
      getProjectKPIs db (some u) pid = none ∧
      (∀ sd ed, getTrendData db (some u) pid sd ed = []) ∧
      (∀ sd ed, getProjectLeaderboard db (some u) pid sd ed = [])) ∧
    (∀ u sid scope, db.scopes.find? (fun s => s.id == sid) = some scope →
      checkProjectAccess db u scope.projectId = false →
      getScopeKPIs db (some u) sid = none ∧
      (∀ sd ed, getScopeLeaderboard db (some u) sid sd ed = [])) ∧
    (∀ u aid act, db.activities.find? (fun a => a.id == aid) = some act →
      checkProjectAccess db u act.projectId = false →
      getActivityKPIs db (some u) aid = none) ∧
    (∀ u, isControlCenter db u = false → getAllProjectsKPIs db (some u) = none) ∧
    (∀ u prof pid, db.userProfiles.find? (fun q => q.userId == u) = some prof →
      prof.role = Role.construction_manager →
      db.projectAssignments.find? (fun a => a.userId == u && a.projectId == pid) = none →
      getProjectKPIs db (some u) pid = none) := by
  refine ⟨fun pid => rfl, fun sid => rfl, fun aid => rfl, rfl, fun pid sd ed => rfl,
    fun pid sd ed => rfl, fun sid sd ed => rfl, fun u pid hacc => ?_,
    fun u sid scope hsc hacc => ?_, fun u aid act hact hacc => ?_, fun u hcc => ?_,
    fun u prof pid hf hcm ha => ?_⟩
  · exact ⟨by simp [getProjectKPIs, hacc], fun sd ed => by simp [getTrendData, hacc],
      fun sd ed => by simp [getProjectLeaderboard, hacc]⟩
  · exact ⟨by simp [getScopeKPIs, hsc, hacc],
      fun sd ed => by simp [getScopeLeaderboard, hsc, hacc]⟩
  · simp [getActivityKPIs, hact, hacc]
  · simp [getAllProjectsKPIs, hcc]
  · have hacc : checkProjectAccess db u pid = false := by
      simp [checkProjectAccess, hf, hcm, ha]
    simp [getProjectKPIs, hacc]

def c9Prof : UserProfile :=
  { userId := "cmuser", name := "Cam", role := Role.construction_manager }

def c9Scope : Scope := { id := "scopeX", projectId := "projX", name := "Electrical" }

def c9Activity : Activity :=
  { id := "actX", scopeId := "scopeX", projectId := "projX", name := "Conduit", unit := "lf" }

def c9Db : Db :=
  { userProfiles := [c9Prof]
    projectAssignments := []
    scopeAssignments := []
    projects := [{ id := "projX", name := "PX", status := ProjectStatus.active }]
    scopes := [c9Scope]
    activities := [c9Activity]
    dailyEntries := []
    nextId := 0 }

/-- Witness for C9: a construction_manager with no assignment for projX gets
null/empty from the project-, scope- and activity-target reads. -/
theorem read_queries_deny_silently_witness :
    getProjectKPIs c9Db (some "cmuser") "projX" = none ∧
    getScopeKPIs c9Db (some "cmuser") "scopeX" = none ∧
    getScopeLeaderboard c9Db (some "cmuser") "scopeX" none none = [] ∧
    getActivityKPIs c9Db (some "cmuser") "actX" = none :=
  ⟨(read_queries_deny_silently c9Db).2.2.2.2.2.2.2.2.2.2.2 "cmuser" c9Prof "projX"
     (by decide) rfl (by decide),
   ((read_queries_deny_silently c9Db).2.2.2.2.2.2.2.2.1 "cmuser" "scopeX" c9Scope
     (by decide) (by decide)).1,
   ((read_queries_deny_silently c9Db).2.2.2.2.2.2.2.2.1 "cmuser" "scopeX" c9Scope
     (by decide) (by decide)).2 none none,
   (read_queries_deny_silently c9Db).2.2.2.2.2.2.2.2.2.1 "cmuser" "actX" c9Activity
     (by decide) (by decide)
⟩
